import Mathlib

/-!
# BoxChooser — verification of the Excel import / YAML persistence layer

Shallow embedding of the parts of the BoxChooser backend that the
specification's testable properties talk about:

* `backend/lib/excel_import.py`: `get_dimensions_from_name`,
  `categorize_product`, `analyze_import_for_matching` (the three-tier
  matching loop), and the upload size-cap / error-wrapping control flow;
* `backend/lib/yaml_helpers.py`: `validate_box_data`, `save_store_yaml`,
  `load_store_yaml`;
* `backend/routers/boxes.py`: `update_itemized_prices`, `create_box`,
  `create_boxes_batch` and the `CreateBoxRequest` pydantic validators.

Python floats are modelled as exact decimal numbers (`PyNum`) or rationals;
strings are modelled as `String` / `List Char` over the ASCII fragment
(Python's `str.lower`, `\s`, `\d` coincide with the model on ASCII input).
-/

namespace BoxChooser

/-! ## Character-level utilities (Python string fragment) -/

/-- Python `\d` on the ASCII fragment. -/
def pyIsDigit (c : Char) : Bool := '0' ≤ c && c ≤ '9'

/-- Python `\s` on the ASCII fragment: space, tab, newline, carriage
return, vertical tab, form feed. -/
def pyIsSpace (c : Char) : Bool :=
  c = ' ' || c = '\t' || c = '\n' || c = '\r' || c = Char.ofNat 11 || c = Char.ofNat 12

/-- Python `str.lower` on a single ASCII character. -/
def pyLowerChar (c : Char) : Char :=
  if 'A' ≤ c && c ≤ 'Z' then Char.ofNat (c.toNat + 32) else c

/-- Python `str.lower` on the ASCII fragment. -/
def pyLower (s : List Char) : List Char := s.map pyLowerChar

/-- `startsWithChars n h` decides whether `h` starts with `n`. -/
def startsWithChars : List Char → List Char → Bool
  | [], _ => true
  | _ :: _, [] => false
  | n :: ns, h :: hs => n = h && startsWithChars ns hs

/-- Python's substring test `n in h`. -/
def containsChars (needle : List Char) : List Char → Bool
  | [] => startsWithChars needle []
  | h :: hs => startsWithChars needle (h :: hs) || containsChars needle hs

theorem startsWithChars_iff (n h : List Char) :
    startsWithChars n h = true ↔ ∃ t, h = n ++ t := by
  induction n generalizing h with
  | nil => simp [startsWithChars]
  | cons c cs ih =>
    cases h with
    | nil => simp [startsWithChars]
    | cons d ds =>
      simp only [startsWithChars, Bool.and_eq_true, decide_eq_true_eq, ih]
      constructor
      · rintro ⟨rfl, t, rfl⟩; exact ⟨t, rfl⟩
      · rintro ⟨t, ht⟩
        rw [List.cons_append] at ht
        cases ht
        exact ⟨rfl, t, rfl⟩

theorem containsChars_iff (n h : List Char) :
    containsChars n h = true ↔ ∃ p t, h = p ++ n ++ t := by
  induction h with
  | nil =>
    simp only [containsChars, startsWithChars_iff]
    constructor
    · rintro ⟨t, ht⟩; exact ⟨[], t, ht⟩
    · rintro ⟨p, t, ht⟩
      cases p with
      | nil => exact ⟨t, ht⟩
      | cons a as => simp at ht
  | cons d ds ih =>
    simp only [containsChars, Bool.or_eq_true, startsWithChars_iff, ih]
    constructor
    · rintro (⟨t, ht⟩ | ⟨p, t, ht⟩)
      · exact ⟨[], t, by simpa using ht⟩
      · exact ⟨d :: p, t, by simp [ht]⟩
    · rintro ⟨p, t, ht⟩
      cases p with
      | nil => exact Or.inl ⟨t, by simpa using ht⟩
      | cons a as =>
        rw [List.cons_append, List.cons_append] at ht
        cases ht
        exact Or.inr ⟨as, t, rfl⟩

/-- Substring containment is monotone: if the haystack contains
`pre ++ n ++ post` then it contains `n`. -/
theorem containsChars_mono {n₂ hay : List Char} (n₁ pre post : List Char)
    (hn : n₂ = pre ++ n₁ ++ post) (h : containsChars n₂ hay = true) :
    containsChars n₁ hay = true := by
  rw [containsChars_iff] at h ⊢
  obtain ⟨p, t, ht⟩ := h
  subst hn
  exact ⟨p ++ pre, post ++ t, by simp [ht]⟩

/-! ## The dimension regex

`re.search(r'(\d+(?:\.\d+)?)\s*[xX]\s*(\d+(?:\.\d+)?)\s*[xX]\s*(\d+(?:\.\d+)?)', name)`

For this pattern the character classes `\d`, `\.`, `\s`, `[xX]` are pairwise
disjoint, so Python's leftmost greedy matching is equivalent to the
deterministic maximal-munch scan implemented here (greedy consumption of
each piece is forced: shrinking any quantifier leaves the next piece facing
a character of the wrong class). -/

/-- `x` or `X` (the separator class `[xX]`). -/
def isXChar (c : Char) : Bool := c = 'x' || c = 'X'

/-- Maximal run of digits at the head (`\d+`/`\d*`), with the rest. -/
def takeDigits : List Char → List Char × List Char
  | [] => ([], [])
  | c :: cs =>
    if pyIsDigit c then
      let (ds, r) := takeDigits cs
      (c :: ds, r)
    else ([], c :: cs)

/-- Skip a maximal run of whitespace (`\s*`). -/
def dropSpaces : List Char → List Char
  | [] => []
  | c :: cs => if pyIsSpace c then dropSpaces cs else c :: cs

/-- Match `\d+(?:\.\d+)?` at the head; returns the matched token and the
rest of the input. -/
def matchNumAt (s : List Char) : Option (List Char × List Char) :=
  match takeDigits s with
  | ([], _) => none
  | (ds, []) => some (ds, [])
  | (ds, c :: r2) =>
    if c = '.' then
      match takeDigits r2 with
      | ([], _) => some (ds, c :: r2)
      | (ds2, r3) => some (ds ++ c :: ds2, r3)
    else some (ds, c :: r2)

/-- Match the whole dimension pattern anchored at the head; returns the
three number tokens and the rest of the input after the match. -/
def tryMatchAt (s : List Char) : Option (List Char × List Char × List Char × List Char) :=
  match matchNumAt s with
  | none => none
  | some (n1, r1) =>
    match dropSpaces r1 with
    | [] => none
    | x1 :: r2 =>
      if isXChar x1 then
        match matchNumAt (dropSpaces r2) with
        | none => none
        | some (n2, r3) =>
          match dropSpaces r3 with
          | [] => none
          | x2 :: r4 =>
            if isXChar x2 then
              match matchNumAt (dropSpaces r4) with
              | none => none
              | some (n3, r5) => some (n1, n2, n3, r5)
            else none
      else none

/-- `re.search` for the dimension pattern: try each start position left to
right. -/
def searchDims : List Char → Option (List Char × List Char × List Char × List Char)
  | [] => none
  | c :: cs =>
    match tryMatchAt (c :: cs) with
    | some m => some m
    | none => searchDims cs

/-- Value of a digit character. -/
def digitVal (c : Char) : ℕ := c.toNat - '0'.toNat

/-- Numeric value of a digit run. -/
def digitsToNat (ds : List Char) : ℕ := ds.foldl (fun a c => a * 10 + digitVal c) 0

/-- Python `float()` of a matched number token (`d+` or `d+.d+`), as an
exact rational. -/
def parseNumQ (tok : List Char) : ℚ :=
  let intPart := tok.takeWhile pyIsDigit
  let rest := tok.dropWhile pyIsDigit
  match rest with
  | '.' :: frac => (digitsToNat intPart : ℚ) + (digitsToNat frac : ℚ) / 10 ^ frac.length
  | _ => (digitsToNat intPart : ℚ)

/-- `get_dimensions_from_name` (excel_import.py): extract three numbers
from a name like `'10x10x10 Box'` or `'17.5x15.125x3.25'`. -/
def get_dimensions_from_name (name : String) : Option (ℚ × ℚ × ℚ) :=
  match searchDims name.data with
  | some (n1, n2, n3, _) => some (parseNumQ n1, parseNumQ n2, parseNumQ n3)
  | none => none

/-- `categorize_product` (excel_import.py): assign a product name to one of
the nine category tokens or `'other'`. -/
def categorize_product (product_name : String) : String :=
  let nl := pyLower product_name.data
  if containsChars "pack service".data nl || containsChars "pack svc".data nl then
    if containsChars "basic".data nl then "basic_service"
    else if containsChars "std".data nl || containsChars "standard".data nl then "standard_service"
    else if containsChars "frg".data nl || containsChars "fragile".data nl then "fragile_service"
    else if containsChars "cust".data nl || containsChars "custom".data nl then "custom_service"
    else "other"
  else if containsChars "pack material".data nl || containsChars "pack mat".data nl then
    if containsChars "basic".data nl then "basic_materials"
    else if containsChars "std".data nl || containsChars "standard".data nl then "standard_materials"
    else if containsChars "frg".data nl || containsChars "fragile".data nl then "fragile_materials"
    else if containsChars "cust".data nl || containsChars "custom".data nl then "custom_materials"
    else "other"
  else if !(containsChars "pack material".data nl || containsChars "pack mat".data nl ||
            containsChars "pack service".data nl || containsChars "pack svc".data nl) then
    if (searchDims product_name.data).isSome then "box"
    else if containsChars "box".data nl then "box"
    else "other"
  else "other"

example : categorize_product "10x10x10 Basic Pack Svc" = "basic_service" := by decide
example : categorize_product "10x10x10 Box" = "box" := by decide
example : categorize_product "Golf club 10x10x48" = "box" := by decide
example : categorize_product "Electronics Insert" = "other" := by decide

/-! ## Specification-side description of the dimension pattern -/

/-- A token matched by `\d+(?:\.\d+)?`. -/
def IsNumTok (l : List Char) : Prop :=
  (l ≠ [] ∧ ∀ c ∈ l, pyIsDigit c = true) ∨
  (∃ a b, l = a ++ '.' :: b ∧ a ≠ [] ∧ b ≠ [] ∧
    (∀ c ∈ a, pyIsDigit c = true) ∧ (∀ c ∈ b, pyIsDigit c = true))

/-- A (possibly empty) run of whitespace, `\s*`. -/
def IsSpaceRun (l : List Char) : Prop := ∀ c ∈ l, pyIsSpace c = true

/-- A full occurrence of `\d+(?:\.\d+)?\s*[xX]\s*\d+(?:\.\d+)?\s*[xX]\s*\d+(?:\.\d+)?`,
with its parts. -/
def IsDimParts (p n1 s1 : List Char) (x1 : Char) (s2 n2 s3 : List Char) (x2 : Char)
    (s4 n3 : List Char) : Prop :=
  p = n1 ++ (s1 ++ (x1 :: (s2 ++ (n2 ++ (s3 ++ (x2 :: (s4 ++ n3))))))) ∧
  IsNumTok n1 ∧ IsNumTok n2 ∧ IsNumTok n3 ∧
  IsSpaceRun s1 ∧ IsSpaceRun s2 ∧ IsSpaceRun s3 ∧ IsSpaceRun s4 ∧
  isXChar x1 = true ∧ isXChar x2 = true

/-- The string contains a substring of the form `<a>x<b>x<c>`. -/
def ContainsDimPattern (s : List Char) : Prop :=
  ∃ pre p post, s = pre ++ p ++ post ∧
    ∃ n1 s1 x1 s2 n2 s3 x2 s4 n3, IsDimParts p n1 s1 x1 s2 n2 s3 x2 s4 n3

/-! ### Character-class facts -/

theorem pyIsSpace_cases {c : Char} (h : pyIsSpace c = true) :
    c = ' ' ∨ c = '\t' ∨ c = '\n' ∨ c = '\r' ∨ c = Char.ofNat 11 ∨ c = Char.ofNat 12 := by
  simp only [pyIsSpace, Bool.or_eq_true, decide_eq_true_eq] at h
  tauto

theorem pyIsSpace_not_digit {c : Char} (h : pyIsSpace c = true) : pyIsDigit c = false := by
  rcases pyIsSpace_cases h with rfl | rfl | rfl | rfl | rfl | rfl <;> decide

theorem pyIsSpace_not_dot {c : Char} (h : pyIsSpace c = true) : c ≠ '.' := by
  rcases pyIsSpace_cases h with rfl | rfl | rfl | rfl | rfl | rfl <;> decide

theorem isXChar_not_digit {c : Char} (h : isXChar c = true) : pyIsDigit c = false := by
  simp only [isXChar, Bool.or_eq_true, decide_eq_true_eq] at h
  rcases h with rfl | rfl <;> decide

theorem isXChar_not_dot {c : Char} (h : isXChar c = true) : c ≠ '.' := by
  simp only [isXChar, Bool.or_eq_true, decide_eq_true_eq] at h
  rcases h with rfl | rfl <;> decide

theorem isXChar_not_space {c : Char} (h : isXChar c = true) : pyIsSpace c = false := by
  simp only [isXChar, Bool.or_eq_true, decide_eq_true_eq] at h
  rcases h with rfl | rfl <;> decide

/-! ### `takeDigits` and `dropSpaces` -/

theorem takeDigits_sound (s : List Char) :
    (takeDigits s).1 ++ (takeDigits s).2 = s ∧
    (∀ c ∈ (takeDigits s).1, pyIsDigit c = true) ∧
    (∀ c ∈ (takeDigits s).2.head?, pyIsDigit c = false) := by
  induction s with
  | nil => simp [takeDigits]
  | cons c cs ih =>
    by_cases hc : pyIsDigit c = true
    · simp only [takeDigits, hc, if_true]
      refine ⟨by simpa using ih.1, ?_, ih.2.2⟩
      intro d hd
      rcases List.mem_cons.1 hd with rfl | hd
      · exact hc
      · exact ih.2.1 d hd
    · simp only [takeDigits, hc, if_false]
      exact ⟨rfl, by simp, by simpa using Bool.eq_false_iff.2 hc⟩

theorem takeDigits_append (ds r : List Char)
    (hds : ∀ c ∈ ds, pyIsDigit c = true)
    (hr : ∀ c ∈ r.head?, pyIsDigit c = false) :
    takeDigits (ds ++ r) = (ds, r) := by
  induction ds with
  | nil =>
    cases r with
    | nil => simp [takeDigits]
    | cons c cs =>
      have : pyIsDigit c = false := hr c (by simp)
      simp [takeDigits, this]
  | cons c cs ih =>
    have hc : pyIsDigit c = true := hds c (by simp)
    have := ih (fun d hd => hds d (by simp [hd]))
    simp [takeDigits, hc, this]

theorem takeDigits_cons_digit {c : Char} (cs : List Char) (hc : pyIsDigit c = true) :
    takeDigits (c :: cs) = (c :: (takeDigits cs).1, (takeDigits cs).2) := by
  simp [takeDigits, hc]

theorem dropSpaces_sound (s : List Char) :
    ∃ sp, s = sp ++ dropSpaces s ∧ IsSpaceRun sp ∧
      (∀ c ∈ (dropSpaces s).head?, pyIsSpace c = false) := by
  induction s with
  | nil => exact ⟨[], by simp [dropSpaces, IsSpaceRun]⟩
  | cons c cs ih =>
    by_cases hc : pyIsSpace c = true
    · obtain ⟨sp, hsp, hrun, hhd⟩ := ih
      refine ⟨c :: sp, ?_, ?_, ?_⟩
      · simp [dropSpaces, hc, ← hsp]
      · intro d hd
        rcases List.mem_cons.1 hd with rfl | hd
        · exact hc
        · exact hrun d hd
      · simpa [dropSpaces, hc] using hhd
    · refine ⟨[], by simp [dropSpaces, hc], by simp [IsSpaceRun], ?_⟩
      have hcf : pyIsSpace c = false := Bool.eq_false_iff.2 hc
      simp [dropSpaces, hcf]

theorem dropSpaces_append (sp r : List Char) (hsp : IsSpaceRun sp)
    (hr : ∀ c ∈ r.head?, pyIsSpace c = false) :
    dropSpaces (sp ++ r) = r := by
  induction sp with
  | nil =>
    cases r with
    | nil => simp [dropSpaces]
    | cons c cs =>
      have : pyIsSpace c = false := hr c (by simp)
      simp [dropSpaces, this]
  | cons c cs ih =>
    have hc : pyIsSpace c = true := hsp c (by simp)
    have := ih (fun d hd => hsp d (by simp [hd]))
    simp [dropSpaces, hc, this]

/-! ### `matchNumAt` -/

theorem matchNumAt_sound {s n r : List Char} (h : matchNumAt s = some (n, r)) :
    s = n ++ r ∧ IsNumTok n := by
  obtain ⟨heq, hdig, hhd⟩ := takeDigits_sound s
  unfold matchNumAt at h
  rcases hds : takeDigits s with ⟨ds, rest⟩
  rw [hds] at h heq hdig hhd
  simp only at heq hdig hhd
  cases ds with
  | nil => simp at h
  | cons d ds' =>
    rcases hrest : rest with _ | ⟨c, r2⟩ <;> rw [hrest] at h heq hhd
    · simp only [Option.some.injEq, Prod.mk.injEq] at h
      rcases h with ⟨rfl, rfl⟩
      exact ⟨by simpa using heq.symm, Or.inl ⟨by simp, hdig⟩⟩
    · by_cases hdot : c = '.'
      · subst hdot
        simp only [if_pos rfl] at h
        obtain ⟨heq2, hdig2, _⟩ := takeDigits_sound r2
        rcases hds2 : takeDigits r2 with ⟨ds2, rest2⟩
        rw [hds2] at h heq2 hdig2
        simp only at heq2 hdig2
        cases ds2 with
        | nil =>
          simp only [Option.some.injEq, Prod.mk.injEq] at h
          rcases h with ⟨rfl, rfl⟩
          exact ⟨by simpa using heq.symm, Or.inl ⟨by simp, hdig⟩⟩
        | cons e es =>
          simp only [Option.some.injEq, Prod.mk.injEq] at h
          rcases h with ⟨rfl, rfl⟩
          refine ⟨?_, Or.inr ⟨d :: ds', e :: es, rfl, by simp, by simp, hdig, hdig2⟩⟩
          rw [← heq, ← heq2]
          simp
      · simp only [if_neg hdot, Option.some.injEq, Prod.mk.injEq] at h
        rcases h with ⟨rfl, rfl⟩
        exact ⟨by simpa using heq.symm, Or.inl ⟨by simp, hdig⟩⟩

theorem matchNumAt_exact {n r : List Char} (hn : IsNumTok n)
    (hr1 : ∀ c ∈ r.head?, pyIsDigit c = false)
    (hr2 : ∀ c ∈ r.head?, c ≠ '.') :
    matchNumAt (n ++ r) = some (n, r) := by
  rcases hn with ⟨hne, hdig⟩ | ⟨a, b, rfl, hane, hbne, ha, hb⟩
  · have htd : takeDigits (n ++ r) = (n, r) := takeDigits_append n r hdig hr1
    unfold matchNumAt
    rw [htd]
    cases n with
    | nil => exact absurd rfl hne
    | cons d ds' =>
      cases r with
      | nil => rfl
      | cons c r2 =>
        have hc : c ≠ '.' := hr2 c (by simp)
        simp [if_neg hc]
  · have htd : takeDigits ((a ++ '.' :: b) ++ r) = (a, '.' :: (b ++ r)) := by
      have h1 := takeDigits_append a ('.' :: (b ++ r)) ha (by simp; decide)
      have h2 : (a ++ '.' :: b) ++ r = a ++ '.' :: (b ++ r) := by simp
      rw [h2, h1]
    unfold matchNumAt
    rw [htd]
    cases a with
    | nil => exact absurd rfl hane
    | cons d ds' =>
      have htd2 : takeDigits (b ++ r) = (b, r) := takeDigits_append b r hb hr1
      cases b with
      | nil => exact absurd rfl hbne
      | cons e es =>
        rw [List.cons_append] at htd2
        simp [htd2]

theorem numTok_head_digit {n : List Char} (hn : IsNumTok n) :
    ∃ c cs, n = c :: cs ∧ pyIsDigit c = true := by
  rcases hn with ⟨hne, hdig⟩ | ⟨a, b, rfl, hane, _, ha, _⟩
  · cases n with
    | nil => exact absurd rfl hne
    | cons c cs => exact ⟨c, cs, rfl, hdig c (by simp)⟩
  · cases a with
    | nil => exact absurd rfl hane
    | cons c cs => exact ⟨c, cs ++ '.' :: b, by simp, ha c (by simp)⟩

theorem matchNumAt_isSome_of_head_digit {c : Char} (hc : pyIsDigit c = true)
    (cs : List Char) : (matchNumAt (c :: cs)).isSome = true := by
  unfold matchNumAt
  rw [takeDigits_cons_digit cs hc]
  rcases htail : (takeDigits cs).2 with _ | ⟨d, r2⟩
  · rfl
  · by_cases hd : d = '.'
    · subst hd
      rcases hts : takeDigits r2 with ⟨ds2, r3⟩
      cases ds2 <;> simp [hts]
    · simp [hd]

theorem pyIsDigit_not_space {c : Char} (hd : pyIsDigit c = true) :
    pyIsSpace c = false := by
  cases hsp : pyIsSpace c
  · rfl
  · rw [pyIsSpace_not_digit hsp] at hd
    exact absurd hd (by simp)

/-- Head facts of a space run followed by an `x` separator: the first
character is neither a digit nor a dot. -/
theorem head_run_x {s1 : List Char} {x1 : Char} (hs1 : IsSpaceRun s1)
    (hx1 : isXChar x1 = true) (R : List Char) :
    (∀ c ∈ (s1 ++ x1 :: R).head?, pyIsDigit c = false) ∧
    (∀ c ∈ (s1 ++ x1 :: R).head?, c ≠ '.') := by
  cases s1 with
  | nil =>
    constructor
    · intro c hc; simp at hc; subst hc; exact isXChar_not_digit hx1
    · intro c hc; simp at hc; subst hc; exact isXChar_not_dot hx1
  | cons d ds =>
    have hd : pyIsSpace d = true := hs1 d (by simp)
    constructor
    · intro c hc; simp at hc; subst hc; exact pyIsSpace_not_digit hd
    · intro c hc; simp at hc; subst hc; exact pyIsSpace_not_dot hd

/-! ### `tryMatchAt` -/

theorem tryMatchAt_sound {s n1 n2 n3 rest : List Char}
    (h : tryMatchAt s = some (n1, n2, n3, rest)) :
    ∃ s1 x1 s2 s3 x2 s4,
      s = n1 ++ (s1 ++ (x1 :: (s2 ++ (n2 ++ (s3 ++ (x2 :: (s4 ++ (n3 ++ rest)))))))) ∧
      IsNumTok n1 ∧ IsNumTok n2 ∧ IsNumTok n3 ∧
      IsSpaceRun s1 ∧ IsSpaceRun s2 ∧ IsSpaceRun s3 ∧ IsSpaceRun s4 ∧
      isXChar x1 = true ∧ isXChar x2 = true := by
  unfold tryMatchAt at h
  split at h
  · simp at h
  next m1 r1 hm1 =>
    split at h
    · simp at h
    next x1 r2 hd1 =>
      split at h
      swap
      · simp at h
      next hx1 =>
        split at h
        · simp at h
        next m2 r3 hm2 =>
          split at h
          · simp at h
          next x2 r4 hd3 =>
            split at h
            swap
            · simp at h
            next hx2 =>
              split at h
              · simp at h
              next m3 r5 hm3 =>
                obtain ⟨hs, htok1⟩ := matchNumAt_sound hm1
                obtain ⟨sp1, hr1, hrun1, _⟩ := dropSpaces_sound r1
                rw [hd1] at hr1
                obtain ⟨sp2, hr2, hrun2, _⟩ := dropSpaces_sound r2
                obtain ⟨hds2, htok2⟩ := matchNumAt_sound hm2
                obtain ⟨sp3, hr3, hrun3, _⟩ := dropSpaces_sound r3
                rw [hd3] at hr3
                obtain ⟨sp4, hr4, hrun4, _⟩ := dropSpaces_sound r4
                obtain ⟨hds4, htok3⟩ := matchNumAt_sound hm3
                simp only [Option.some.injEq, Prod.mk.injEq] at h
                obtain ⟨rfl, rfl, rfl, rfl⟩ := h
                refine ⟨sp1, x1, sp2, sp3, x2, sp4, ?_, htok1, htok2, htok3,
                  hrun1, hrun2, hrun3, hrun4, hx1, hx2⟩
                rw [hs, hr1, hr2, hds2, hr3, hr4, hds4]

theorem tryMatchAt_of_parts {p n1 s1 : List Char} {x1 : Char}
    {s2 n2 s3 : List Char} {x2 : Char} {s4 n3 : List Char}
    (hp : IsDimParts p n1 s1 x1 s2 n2 s3 x2 s4 n3) (rest : List Char) :
    (tryMatchAt (p ++ rest)).isSome = true := by
  obtain ⟨rfl, ht1, ht2, ht3, hs1, hs2, hs3, hs4, hx1, hx2⟩ := hp
  obtain ⟨c3, cs3, hn3, hc3⟩ := numTok_head_digit ht3
  obtain ⟨c2, cs2, hn2, hc2⟩ := numTok_head_digit ht2
  -- the tail after the first number token
  have h1 : matchNumAt (n1 ++ (s1 ++ (x1 :: (s2 ++ (n2 ++ (s3 ++ (x2 :: (s4 ++ (n3 ++ rest))))))))) =
      some (n1, s1 ++ (x1 :: (s2 ++ (n2 ++ (s3 ++ (x2 :: (s4 ++ (n3 ++ rest)))))))) :=
    matchNumAt_exact ht1 (head_run_x hs1 hx1 _).1 (head_run_x hs1 hx1 _).2
  have hd1 : dropSpaces (s1 ++ (x1 :: (s2 ++ (n2 ++ (s3 ++ (x2 :: (s4 ++ (n3 ++ rest)))))))) =
      x1 :: (s2 ++ (n2 ++ (s3 ++ (x2 :: (s4 ++ (n3 ++ rest)))))) := by
    refine dropSpaces_append _ _ hs1 ?_
    intro c hc; simp at hc; subst hc; exact isXChar_not_space hx1
  have hd2 : dropSpaces (s2 ++ (n2 ++ (s3 ++ (x2 :: (s4 ++ (n3 ++ rest)))))) =
      n2 ++ (s3 ++ (x2 :: (s4 ++ (n3 ++ rest)))) := by
    refine dropSpaces_append _ _ hs2 ?_
    intro c hc
    rw [hn2] at hc
    simp at hc; subst hc
    exact pyIsDigit_not_space hc2
  have h2 : matchNumAt (n2 ++ (s3 ++ (x2 :: (s4 ++ (n3 ++ rest))))) =
      some (n2, s3 ++ (x2 :: (s4 ++ (n3 ++ rest)))) :=
    matchNumAt_exact ht2 (head_run_x hs3 hx2 _).1 (head_run_x hs3 hx2 _).2
  have hd3 : dropSpaces (s3 ++ (x2 :: (s4 ++ (n3 ++ rest)))) =
      x2 :: (s4 ++ (n3 ++ rest)) := by
    refine dropSpaces_append _ _ hs3 ?_
    intro c hc; simp at hc; subst hc; exact isXChar_not_space hx2
  have hd4 : dropSpaces (s4 ++ (n3 ++ rest)) = n3 ++ rest := by
    refine dropSpaces_append _ _ hs4 ?_
    intro c hc
    rw [hn3] at hc
    simp at hc; subst hc
    exact pyIsDigit_not_space hc3
  have h3 : (matchNumAt (n3 ++ rest)).isSome = true := by
    rw [hn3, List.cons_append]
    exact matchNumAt_isSome_of_head_digit hc3 _
  unfold tryMatchAt
  rw [show (n1 ++ (s1 ++ (x1 :: (s2 ++ (n2 ++ (s3 ++ (x2 :: (s4 ++ n3)))))))) ++ rest =
      n1 ++ (s1 ++ (x1 :: (s2 ++ (n2 ++ (s3 ++ (x2 :: (s4 ++ (n3 ++ rest)))))))) by simp]
  rw [h1]
  simp only
  rw [hd1]
  simp only [if_pos hx1]
  rw [hd2, h2]
  simp only
  rw [hd3]
  simp only [if_pos hx2]
  rw [hd4]
  rcases hm3 : matchNumAt (n3 ++ rest) with _ | ⟨m3, r5⟩
  · rw [hm3] at h3; simp at h3
  · simp

/-! ### `searchDims` -/

theorem searchDims_sound {s n1 n2 n3 rest : List Char}
    (h : searchDims s = some (n1, n2, n3, rest)) :
    ∃ pre t, s = pre ++ t ∧ tryMatchAt t = some (n1, n2, n3, rest) := by
  induction s with
  | nil => simp [searchDims] at h
  | cons c cs ih =>
    unfold searchDims at h
    rcases hm : tryMatchAt (c :: cs) with _ | m <;> rw [hm] at h
    · obtain ⟨pre, t, hpre, ht⟩ := ih h
      exact ⟨c :: pre, t, by simp [hpre], ht⟩
    · cases h
      exact ⟨[], c :: cs, by simp, hm⟩

theorem searchDims_isSome_append (pre t : List Char)
    (h : (tryMatchAt t).isSome = true) (hne : t ≠ []) :
    (searchDims (pre ++ t)).isSome = true := by
  induction pre with
  | nil =>
    cases t with
    | nil => exact absurd rfl hne
    | cons c cs =>
      simp only [List.nil_append]
      unfold searchDims
      rcases hm : tryMatchAt (c :: cs) with _ | m
      · rw [hm] at h; simp at h
      · simp [hm]
  | cons c pre' ih =>
    rw [List.cons_append]
    unfold searchDims
    rcases hm : tryMatchAt (c :: (pre' ++ t)) with _ | m
    · simpa [hm] using ih
    · simp [hm]

theorem searchDims_isSome {s : List Char} (h : ContainsDimPattern s) :
    (searchDims s).isSome = true := by
  obtain ⟨pre, p, post, rfl, n1, s1, x1, s2, n2, s3, x2, s4, n3, hp⟩ := h
  have hne : p ++ post ≠ [] := by
    obtain ⟨c, cs, hn1, _⟩ := numTok_head_digit hp.2.1
    rw [hp.1, hn1]
    simp
  have := searchDims_isSome_append pre (p ++ post) (tryMatchAt_of_parts hp post) hne
  simpa using this

/-- Decompose a successful search into an occurrence of the pattern. -/
theorem searchDims_decomp {s n1 n2 n3 rest : List Char}
    (h : searchDims s = some (n1, n2, n3, rest)) :
    ∃ pre s1 x1 s2 s3 x2 s4,
      s = pre ++ (n1 ++ (s1 ++ (x1 :: (s2 ++ (n2 ++ (s3 ++ (x2 :: (s4 ++ n3)))))))) ++ rest ∧
      IsDimParts (n1 ++ (s1 ++ (x1 :: (s2 ++ (n2 ++ (s3 ++ (x2 :: (s4 ++ n3))))))))
        n1 s1 x1 s2 n2 s3 x2 s4 n3 := by
  obtain ⟨pre, t, rfl, ht⟩ := searchDims_sound h
  obtain ⟨s1, x1, s2, s3, x2, s4, hdec, p1, p2, p3, q1, q2, q3, q4, hx1, hx2⟩ :=
    tryMatchAt_sound ht
  refine ⟨pre, s1, x1, s2, s3, x2, s4, ?_,
    rfl, p1, p2, p3, q1, q2, q3, q4, hx1, hx2⟩
  rw [hdec]
  simp

theorem containsDimPattern_of_searchDims {s n1 n2 n3 rest : List Char}
    (h : searchDims s = some (n1, n2, n3, rest)) : ContainsDimPattern s := by
  obtain ⟨pre, s1, x1, s2, s3, x2, s4, hdec, hparts⟩ := searchDims_decomp h
  exact ⟨pre, _, rest, hdec, n1, s1, x1, s2, n2, s3, x2, s4, n3, hparts⟩

/-- **C8**: `get_dimensions_from_name` returns `None` exactly on strings that
contain no `<a>x<b>x<c>` substring, and when it returns a triple, the three
numbers come from an actual occurrence of the pattern, parsed as floats in
their order of appearance. -/
theorem get_dimensions_from_name_spec (name : String) :
    (get_dimensions_from_name name = none ↔ ¬ ContainsDimPattern name.data) ∧
    (∀ a b c : ℚ, get_dimensions_from_name name = some (a, b, c) →
      ∃ pre n1 s1 x1 s2 n2 s3 x2 s4 n3 post,
        name.data = pre ++ (n1 ++ (s1 ++ (x1 :: (s2 ++ (n2 ++ (s3 ++ (x2 :: (s4 ++ n3)))))))) ++ post ∧
        IsDimParts (n1 ++ (s1 ++ (x1 :: (s2 ++ (n2 ++ (s3 ++ (x2 :: (s4 ++ n3))))))))
          n1 s1 x1 s2 n2 s3 x2 s4 n3 ∧
        a = parseNumQ n1 ∧ b = parseNumQ n2 ∧ c = parseNumQ n3) := by
  constructor
  · constructor
    · intro h hc
      have hsome := searchDims_isSome hc
      unfold get_dimensions_from_name at h
      rcases hm : searchDims name.data with _ | ⟨m1, m2, m3, r⟩
      · rw [hm] at hsome; simp at hsome
      · rw [hm] at h; simp at h
    · intro h
      unfold get_dimensions_from_name
      rcases hm : searchDims name.data with _ | ⟨m1, m2, m3, r⟩
      · rfl
      · exact absurd (containsDimPattern_of_searchDims hm) h
  · intro a b c h
    unfold get_dimensions_from_name at h
    rcases hm : searchDims name.data with _ | ⟨m1, m2, m3, r⟩ <;> rw [hm] at h
    · simp at h
    · simp only [Option.some.injEq, Prod.mk.injEq] at h
      obtain ⟨rfl, rfl, rfl⟩ := h
      obtain ⟨pre, s1, x1, s2, s3, x2, s4, hdec, hparts⟩ := searchDims_decomp hm
      exact ⟨pre, m1, s1, x1, s2, m2, s3, x2, s4, m3, r, hdec, hparts, rfl, rfl, rfl⟩

theorem parseNumQ_ten : parseNumQ ['1', '0'] = 10 := by
  have h1 : List.takeWhile pyIsDigit ['1', '0'] = ['1', '0'] := by decide
  have h2 : List.dropWhile pyIsDigit ['1', '0'] = [] := by decide
  have h3 : digitsToNat ['1', '0'] = 10 := by decide
  simp [parseNumQ, h1, h2, h3]

theorem parseNumQ_twelve : parseNumQ ['1', '2'] = 12 := by
  have h1 : List.takeWhile pyIsDigit ['1', '2'] = ['1', '2'] := by decide
  have h2 : List.dropWhile pyIsDigit ['1', '2'] = [] := by decide
  have h3 : digitsToNat ['1', '2'] = 12 := by decide
  simp [parseNumQ, h1, h2, h3]

theorem parseNumQ_three : parseNumQ ['3'] = 3 := by
  have h1 : List.takeWhile pyIsDigit ['3'] = ['3'] := by decide
  have h2 : List.dropWhile pyIsDigit ['3'] = [] := by decide
  have h3 : digitsToNat ['3'] = 3 := by decide
  simp [parseNumQ, h1, h2, h3]

/-- Witness for C8: the golf-club example extracts `(10, 12, 3)` from an
actual occurrence of the pattern. -/
theorem get_dimensions_from_name_spec_witness :
    ∃ pre n1 s1 x1 s2 n2 s3 x2 s4 n3 post,
      ("Golf club 10x12x3").data =
        pre ++ (n1 ++ (s1 ++ (x1 :: (s2 ++ (n2 ++ (s3 ++ (x2 :: (s4 ++ n3)))))))) ++ post ∧
      IsDimParts (n1 ++ (s1 ++ (x1 :: (s2 ++ (n2 ++ (s3 ++ (x2 :: (s4 ++ n3))))))))
        n1 s1 x1 s2 n2 s3 x2 s4 n3 ∧
      (10 : ℚ) = parseNumQ n1 ∧ (12 : ℚ) = parseNumQ n2 ∧ (3 : ℚ) = parseNumQ n3 :=
  (get_dimensions_from_name_spec "Golf club 10x12x3").2 10 12 3 (by
    have hs : searchDims ("Golf club 10x12x3".data) =
        some (['1', '0'], ['1', '2'], ['3'], ([] : List Char)) := by decide
    unfold get_dimensions_from_name
    rw [hs]
    simp [parseNumQ_ten, parseNumQ_twelve, parseNumQ_three])

/-- **C7 (counterexample)**: a product name containing `"pack svc fragile"`
(case-insensitively) that also contains `"basic"` is classified
`basic_service`, not `fragile_service`, so the claim as stated fails. -/
theorem categorize_product_claim_counterexample :
    containsChars ("pack svc fragile".data) (pyLower ("Basic Pack Svc Fragile").data) = true ∧
    categorize_product "Basic Pack Svc Fragile" = "basic_service" ∧
    categorize_product "Basic Pack Svc Fragile" ≠ "fragile_service" := by
  refine ⟨by decide, by decide, by decide⟩

/-- **C7 (amended)**: `categorize_product` is a (deterministic) function
returning a single category string; a product name containing
`"pack svc fragile"` case-insensitively — and not also containing
`"basic"`, `"std"` or `"standard"`, which the source checks first — is
classified `fragile_service` and never `box`. -/
theorem categorize_product_fragile_service (name : String)
    (h : containsChars ("pack svc fragile".data) (pyLower name.data) = true)
    (hb : containsChars ("basic".data) (pyLower name.data) = false)
    (hstd : containsChars ("std".data) (pyLower name.data) = false)
    (hstandard : containsChars ("standard".data) (pyLower name.data) = false) :
    categorize_product name = "fragile_service" ∧ categorize_product name ≠ "box" := by
  have hsvc : containsChars ("pack svc".data) (pyLower name.data) = true :=
    containsChars_mono ("pack svc".data) [] (" fragile".data) (by decide) h
  have hfrg : containsChars ("fragile".data) (pyLower name.data) = true :=
    containsChars_mono ("fragile".data) ("pack svc ".data) [] (by decide) h
  have heq : categorize_product name = "fragile_service" := by
    unfold categorize_product
    simp only [hsvc, hb, hstd, hstandard, hfrg, Bool.or_true, Bool.true_or,
      Bool.or_false, Bool.false_or, if_true, if_false]
    decide
  exact ⟨heq, by rw [heq]; decide⟩

/-- Witness for C7 (amended) at a concrete product name. -/
theorem categorize_product_fragile_service_witness :
    categorize_product "17x17x17 Pack Svc Fragile" = "fragile_service" ∧
    categorize_product "17x17x17 Pack Svc Fragile" ≠ "box" :=
  categorize_product_fragile_service "17x17x17 Pack Svc Fragile"
    (by decide) (by decide) (by decide) (by decide)

/-! ## Python numbers and scalars

Python ints and floats, with floats as exact decimals: `PyNum.f m e` is the
float printed with `e` decimal digits, value `m / 10^e` (Python float
literals arriving from YAML/Excel are modelled by their printed decimal
form; `e` is minimal — Python's `repr` prints the shortest such form). -/

inductive PyNum where
  | i (n : ℤ)
  | f (m : ℤ) (e : ℕ)
deriving DecidableEq

/-- Decimal digits of a natural number (fuel-based so that the kernel can
evaluate it). -/
def natDigitsAux : ℕ → ℕ → List Char
  | 0, _ => []
  | fuel + 1, n =>
    if n < 10 then [Char.ofNat (48 + n)]
    else natDigitsAux fuel (n / 10) ++ [Char.ofNat (48 + n % 10)]

def natDigits (n : ℕ) : List Char := natDigitsAux (n + 1) n

/-- Python `str()` of an int. -/
def intToChars (n : ℤ) : List Char :=
  if n < 0 then '-' :: natDigits n.natAbs else natDigits n.natAbs

def padLeftZeros (l : List Char) (k : ℕ) : List Char :=
  List.replicate (k - l.length) '0' ++ l

/-- Python `str()`/`repr()` of a float printed with `e` decimal digits
(`e = 0` encodes an integral float, printed `n.0`). -/
def floatToChars (m : ℤ) (e : ℕ) : List Char :=
  let sign : List Char := if m < 0 then ['-'] else []
  let a := m.natAbs
  if e = 0 then sign ++ natDigits a ++ ['.', '0']
  else sign ++ natDigits (a / 10 ^ e) ++ '.' :: padLeftZeros (natDigits (a % 10 ^ e)) e

/-- Python `str()` of a number. -/
def pyNumStr (p : PyNum) : List Char :=
  match p with
  | .i n => intToChars n
  | .f m e => floatToChars m e

/-- Python `float()` of a number. -/
def pyFloat : PyNum → PyNum
  | .i n => .f n 0
  | .f m e => .f m e

/-- Python `int()` of a number: truncation toward zero. -/
def PyNum.trunc : PyNum → ℤ
  | .i n => n
  | .f m e => if 0 ≤ m then ((m.natAbs / 10 ^ e : ℕ) : ℤ) else -((m.natAbs / 10 ^ e : ℕ) : ℤ)

/-- Python truthiness of a number (`0`/`0.0` are falsy). -/
def pyNumTruthy : PyNum → Bool
  | .i n => n ≠ 0
  | .f m _ => m ≠ 0

/-- A scalar spreadsheet cell value: a string or a number. -/
inductive PyScalar where
  | str (v : String)
  | num (p : PyNum)
deriving DecidableEq

/-- Python `str()` of a scalar. -/
def pyStr (v : PyScalar) : String :=
  match v with
  | .str s => s
  | .num p => ⟨pyNumStr p⟩

/-- Python `str.strip()` on the ASCII fragment. -/
def pyStrip (l : List Char) : List Char :=
  (dropSpaces ((dropSpaces l).reverse)).reverse

/-! ## The three-tier matching analysis (`analyze_import_for_matching`)

The embedding starts from `rows_data` (the list of parsed row dicts,
lines 503–511 of excel_import.py): each row is modelled by the three
columns the function reads. `Price` cells are modelled as numeric (the
code calls `float()` on them). -/

structure ExcelRow where
  /-- the `Item` column, when present -/
  item : Option PyScalar
  /-- `str()` of the `Product name` column -/
  productName : String
  /-- the `Price` column, when present -/
  price : Option PyNum
deriving DecidableEq

/-- `float(row.get('Price', 0) or 0)`. -/
def priceVal (p : Option PyNum) : PyNum :=
  let v := p.getD (.i 0)
  pyFloat (if pyNumTruthy v then v else .i 0)

/-- `str(row.get('Item', ''))`. -/
def rowItemStr (r : ExcelRow) : String := pyStr (r.item.getD (.str ""))

/-- One entry of a dimension group (`item_data`, lines 543–551). -/
structure ItemData where
  item_id : Option PyScalar
  product_name : String
  price : PyNum
  category : String
  dimensions_exact : String
  dimensions_int : String
  suffix : String
deriving DecidableEq

/-- Insertion-ordered dict: append `v` to the list stored at `k`,
creating the key at the end on first use (Python
`groups.setdefault`-style usage at lines 532–535, 553–554). -/
def dictAppend (k : String) (v : ItemData) :
    List (String × List ItemData) → List (String × List ItemData)
  | [] => [(k, [v])]
  | (k2, vs) :: rest =>
    if k2 = k then (k2, vs ++ [v]) :: rest else (k2, vs) :: dictAppend k v rest

/-- Python dict lookup. -/
def dictFind (k : String) : List (String × α) → Option α
  | [] => none
  | (k2, v) :: rest => if k2 = k then some v else dictFind k rest

/-- Python dict assignment: update in place, or append a new key. -/
def dictSet (k : String) (v : α) : List (String × α) → List (String × α)
  | [] => [(k, v)]
  | (k2, v2) :: rest =>
    if k2 = k then (k2, v) :: rest else (k2, v2) :: dictSet k v rest

/-- `int(float(group))` for a nonnegative matched number token: the value
of its integer-part digits. -/
def tokTrunc (t : List Char) : ℕ := digitsToNat (t.takeWhile pyIsDigit)

structure GroupCtx where
  groupsInt : List (String × List ItemData)
  groupsExact : List (String × List ItemData)
deriving DecidableEq

/-- One iteration of the grouping loop (lines 519–559). -/
def groupStep (ctx : GroupCtx) (row : ExcelRow) : GroupCtx :=
  match searchDims row.productName.data with
  | none => ctx
  | some (n1, n2, n3, rest) =>
    let dimStrExact : String := ⟨n1 ++ 'x' :: n2 ++ 'x' :: n3⟩
    let dimStrInt : String :=
      ⟨natDigits (tokTrunc n1) ++ 'x' :: natDigits (tokTrunc n2) ++ 'x' :: natDigits (tokTrunc n3)⟩
    let item : ItemData :=
      { item_id := row.item
        product_name := row.productName
        price := priceVal row.price
        category := categorize_product row.productName
        dimensions_exact := dimStrExact
        dimensions_int := dimStrInt
        suffix := ⟨pyStrip rest⟩ }
    { groupsInt := dictAppend dimStrInt item ctx.groupsInt
      groupsExact := dictAppend dimStrExact item ctx.groupsExact }

def buildGroups (rows : List ExcelRow) : GroupCtx :=
  rows.foldl groupStep ⟨[], []⟩

/-- A store box as read by the matching loop: the fields
`analyze_import_for_matching` accesses (`model`, the three `dimensions`
entries, `MPOS_mapping`, `itemized-prices`). -/
structure ABox where
  /-- `box.get('model', '')` -/
  model : String
  dimensions : PyNum × PyNum × PyNum
  /-- `box['MPOS_mapping']` when the key is present -/
  mpos : Option (List (String × PyScalar))
  /-- `box.get('itemized-prices', {})` -/
  itemizedPrices : List (String × PyScalar)
deriving DecidableEq

structure BoxRef where
  model : String
  dimensions : String
  dimensions_int : String
deriving DecidableEq

structure MappedItem where
  field : String
  item_id : PyScalar
  product_name : String
  price : PyNum
deriving DecidableEq

structure PerfectEntry where
  box : BoxRef
  mapped_items : List MappedItem
  current_prices : List (String × PyScalar)
deriving DecidableEq

structure ProbableEntry where
  box : BoxRef
  excel_items : List ItemData
  categories_found : List (String × ItemData)
  is_complete : Bool
deriving DecidableEq

structure IncompleteEntry where
  box : BoxRef
  excel_items : List ItemData
  categories_found : List (String × ItemData)
  missing_categories : List String
  reason : String
deriving DecidableEq

structure ManualEntry where
  box : BoxRef
  excel_items : List ItemData
  reason : String
deriving DecidableEq

/-- Find the first row whose `Item` value, as a string, equals `idStr`
(lines 591–600; the loop `break`s at the first hit). -/
def findRowByItem (idStr : String) : List ExcelRow → Option ExcelRow
  | [] => none
  | r :: rs => if rowItemStr r = idStr then some r else findRowByItem idStr rs

/-- The mapping-verification loop (lines 587–603): returns the
`mapped_items` entries in mapping order and the missing-item messages. -/
def collectMapped (rows : List ExcelRow) :
    List (String × PyScalar) → List MappedItem × List String
  | [] => ([], [])
  | (fld, id) :: rest =>
    let (ms, miss) := collectMapped rows rest
    match findRowByItem (pyStr id) rows with
    | some r =>
      (⟨fld, id, r.productName, priceVal r.price⟩ :: ms, miss)
    | none => (ms, (fld ++ ": " ++ pyStr id) :: miss)

/-- `categories_found` (lines 624–627): last item of each non-`other`
category wins, insertion order of first occurrence kept. -/
def buildCategoriesFound (items : List ItemData) : List (String × ItemData) :=
  items.foldl
    (fun acc it => if it.category ≠ "other" then dictSet it.category it acc else acc) []

def required_categories : List String :=
  ["box", "basic_materials", "basic_service",
   "standard_materials", "standard_service",
   "fragile_materials", "fragile_service",
   "custom_materials", "custom_service"]

def missingCategories (found : List (String × ItemData)) : List String :=
  required_categories.filter (fun c => (dictFind c found).isNone)

/-- `f"{d0}x{d1}x{d2}"` over the original dimension values. -/
def boxDimStr (b : ABox) : String :=
  ⟨pyNumStr b.dimensions.1 ++ 'x' :: pyNumStr b.dimensions.2.1 ++ 'x' :: pyNumStr b.dimensions.2.2⟩

/-- `f"{d0}x{d1}x{d2}"` over the `int(float(_))`-truncated dimensions. -/
def boxDimStrInt (b : ABox) : String :=
  ⟨intToChars b.dimensions.1.trunc ++ 'x' :: intToChars b.dimensions.2.1.trunc ++ 'x' ::
    intToChars b.dimensions.2.2.trunc⟩

def boxRefOf (b : ABox) : BoxRef := ⟨b.model, boxDimStr b, boxDimStrInt b⟩

/-- The perfect-match check (lines 578–616): `MPOS_mapping` present and
truthy, every mapped item found by string-compared `Item` id, and at
least 9 mapped fields. -/
def perfectCheck (rows : List ExcelRow) (b : ABox) : Option PerfectEntry :=
  match b.mpos with
  | none => none
  | some mapping =>
    if mapping = [] then none
    else
      let (mapped, missing) := collectMapped rows mapping
      if missing = [] ∧ 9 ≤ mapped.length then
        some ⟨boxRefOf b, mapped, b.itemizedPrices⟩
      else none

inductive MatchResult where
  | perfect (e : PerfectEntry)
  | probable (e : ProbableEntry)
  | incomplete (e : IncompleteEntry)
  | manual (e : ManualEntry)
deriving DecidableEq

/-- Classification of one store box (the body of the loop over
`store_data['boxes']`, lines 569–671). -/
def classifyBox (rows : List ExcelRow) (groupsInt : List (String × List ItemData))
    (b : ABox) : MatchResult :=
  match perfectCheck rows b with
  | some e => .perfect e
  | none =>
    match dictFind (boxDimStrInt b) groupsInt with
    | some excelItems =>
      let found := buildCategoriesFound excelItems
      let missing := missingCategories found
      if missing = [] then .probable ⟨boxRefOf b, excelItems, found, true⟩
      else .incomplete ⟨boxRefOf b, excelItems, found, missing, "incomplete_categories"⟩
    | none => .manual ⟨boxRefOf b, [], "no_dimension_match"⟩

structure Summary where
  total_boxes : ℕ
  perfect_matches : ℕ
  probable_matches : ℕ
  incomplete_matches : ℕ
  manual_required : ℕ
  excel_dimensions : ℕ
deriving DecidableEq

structure AnalyzeResult where
  perfect_matches : List PerfectEntry
  probable_matches : List ProbableEntry
  incomplete_matches : List IncompleteEntry
  manual_required : List ManualEntry
  summary : Summary
  excel_dimension_groups : List (String × List ItemData)
  excel_dimension_groups_exact : List (String × List ItemData)
deriving DecidableEq

abbrev TierAcc :=
  List PerfectEntry × List ProbableEntry × List IncompleteEntry × List ManualEntry

def tierStep (rows : List ExcelRow) (groupsInt : List (String × List ItemData))
    (acc : TierAcc) (b : ABox) : TierAcc :=
  match classifyBox rows groupsInt b with
  | .perfect e => (acc.1 ++ [e], acc.2.1, acc.2.2.1, acc.2.2.2)
  | .probable e => (acc.1, acc.2.1 ++ [e], acc.2.2.1, acc.2.2.2)
  | .incomplete e => (acc.1, acc.2.1, acc.2.2.1 ++ [e], acc.2.2.2)
  | .manual e => (acc.1, acc.2.1, acc.2.2.1, acc.2.2.2 ++ [e])

/-- `analyze_import_for_matching` from the parsed rows on: grouping,
per-box classification, and the returned lists plus summary counts
(lines 514–697). -/
def analyze_import_for_matching (rows : List ExcelRow) (boxes : List ABox) :
    AnalyzeResult :=
  let ctx := buildGroups rows
  let tiers := boxes.foldl (tierStep rows ctx.groupsInt) ([], [], [], [])
  { perfect_matches := tiers.1
    probable_matches := tiers.2.1
    incomplete_matches := tiers.2.2.1
    manual_required := tiers.2.2.2
    summary :=
      { total_boxes := boxes.length
        perfect_matches := tiers.1.length
        probable_matches := tiers.2.1.length
        incomplete_matches := tiers.2.2.1.length
        manual_required := tiers.2.2.2.length
        excel_dimensions := ctx.groupsInt.length }
    excel_dimension_groups := ctx.groupsInt
    excel_dimension_groups_exact := ctx.groupsExact }

/-! ### Tier-membership helpers -/

def perfectPart : MatchResult → Option PerfectEntry
  | .perfect e => some e
  | _ => none

def probablePart : MatchResult → Option ProbableEntry
  | .probable e => some e
  | _ => none

def incompletePart : MatchResult → Option IncompleteEntry
  | .incomplete e => some e
  | _ => none

def manualPart : MatchResult → Option ManualEntry
  | .manual e => some e
  | _ => none

@[simp] theorem perfectPart_p (e : PerfectEntry) : perfectPart (.perfect e) = some e := rfl
@[simp] theorem perfectPart_pr (e : ProbableEntry) : perfectPart (.probable e) = none := rfl
@[simp] theorem perfectPart_in (e : IncompleteEntry) : perfectPart (.incomplete e) = none := rfl
@[simp] theorem perfectPart_ma (e : ManualEntry) : perfectPart (.manual e) = none := rfl
@[simp] theorem probablePart_p (e : PerfectEntry) : probablePart (.perfect e) = none := rfl
@[simp] theorem probablePart_pr (e : ProbableEntry) : probablePart (.probable e) = some e := rfl
@[simp] theorem probablePart_in (e : IncompleteEntry) : probablePart (.incomplete e) = none := rfl
@[simp] theorem probablePart_ma (e : ManualEntry) : probablePart (.manual e) = none := rfl
@[simp] theorem incompletePart_p (e : PerfectEntry) : incompletePart (.perfect e) = none := rfl
@[simp] theorem incompletePart_pr (e : ProbableEntry) : incompletePart (.probable e) = none := rfl
@[simp] theorem incompletePart_in (e : IncompleteEntry) :
    incompletePart (.incomplete e) = some e := rfl
@[simp] theorem incompletePart_ma (e : ManualEntry) : incompletePart (.manual e) = none := rfl
@[simp] theorem manualPart_p (e : PerfectEntry) : manualPart (.perfect e) = none := rfl
@[simp] theorem manualPart_pr (e : ProbableEntry) : manualPart (.probable e) = none := rfl
@[simp] theorem manualPart_in (e : IncompleteEntry) : manualPart (.incomplete e) = none := rfl
@[simp] theorem manualPart_ma (e : ManualEntry) : manualPart (.manual e) = some e := rfl

/-- The tier fold is the classification applied box by box: each list
collects, in box order, exactly the boxes classified into that tier. -/
theorem tierFold_eq (rows : List ExcelRow) (groupsInt : List (String × List ItemData))
    (boxes : List ABox) (acc : TierAcc) :
    boxes.foldl (tierStep rows groupsInt) acc =
      (acc.1 ++ boxes.filterMap (fun b => perfectPart (classifyBox rows groupsInt b)),
       acc.2.1 ++ boxes.filterMap (fun b => probablePart (classifyBox rows groupsInt b)),
       acc.2.2.1 ++ boxes.filterMap (fun b => incompletePart (classifyBox rows groupsInt b)),
       acc.2.2.2 ++ boxes.filterMap (fun b => manualPart (classifyBox rows groupsInt b))) := by
  induction boxes generalizing acc with
  | nil => simp
  | cons b bs ih =>
    simp only [List.foldl_cons, List.filterMap_cons]
    rw [ih]
    cases hcl : classifyBox rows groupsInt b <;> simp [tierStep, hcl]

theorem tierParts_length_sum (rows : List ExcelRow)
    (groupsInt : List (String × List ItemData)) (boxes : List ABox) :
    (boxes.filterMap (fun b => perfectPart (classifyBox rows groupsInt b))).length +
    (boxes.filterMap (fun b => probablePart (classifyBox rows groupsInt b))).length +
    (boxes.filterMap (fun b => incompletePart (classifyBox rows groupsInt b))).length +
    (boxes.filterMap (fun b => manualPart (classifyBox rows groupsInt b))).length =
      boxes.length := by
  induction boxes with
  | nil => simp
  | cons b bs ih =>
    cases hcl : classifyBox rows groupsInt b <;>
      simp [List.filterMap_cons, hcl] <;> omega

/-- **C6**: `analyze_import_for_matching` puts every box into exactly one
of the four tiers — each tier list is exactly the sequence of boxes whose
classification lands there, the four lengths sum to the number of boxes,
and the summary counts are the list lengths with `total_boxes` their sum. -/
theorem analyze_tiers_partition (rows : List ExcelRow) (boxes : List ABox) :
    (analyze_import_for_matching rows boxes).perfect_matches.length +
      (analyze_import_for_matching rows boxes).probable_matches.length +
      (analyze_import_for_matching rows boxes).incomplete_matches.length +
      (analyze_import_for_matching rows boxes).manual_required.length = boxes.length ∧
    (analyze_import_for_matching rows boxes).summary.total_boxes = boxes.length ∧
    (analyze_import_for_matching rows boxes).summary.perfect_matches =
      (analyze_import_for_matching rows boxes).perfect_matches.length ∧
    (analyze_import_for_matching rows boxes).summary.probable_matches =
      (analyze_import_for_matching rows boxes).probable_matches.length ∧
    (analyze_import_for_matching rows boxes).summary.incomplete_matches =
      (analyze_import_for_matching rows boxes).incomplete_matches.length ∧
    (analyze_import_for_matching rows boxes).summary.manual_required =
      (analyze_import_for_matching rows boxes).manual_required.length ∧
    (analyze_import_for_matching rows boxes).perfect_matches =
      boxes.filterMap (fun b => perfectPart (classifyBox rows (buildGroups rows).groupsInt b)) ∧
    (analyze_import_for_matching rows boxes).probable_matches =
      boxes.filterMap (fun b => probablePart (classifyBox rows (buildGroups rows).groupsInt b)) ∧
    (analyze_import_for_matching rows boxes).incomplete_matches =
      boxes.filterMap (fun b => incompletePart (classifyBox rows (buildGroups rows).groupsInt b)) ∧
    (analyze_import_for_matching rows boxes).manual_required =
      boxes.filterMap (fun b => manualPart (classifyBox rows (buildGroups rows).groupsInt b)) := by
  have hfold := tierFold_eq rows (buildGroups rows).groupsInt boxes ([], [], [], [])
  have hsum := tierParts_length_sum rows (buildGroups rows).groupsInt boxes
  simp only [analyze_import_for_matching, hfold, List.nil_append]
  simp [hsum]

/-! ### C1: complete found vendor mappings are perfect matches -/

theorem findRowByItem_isSome {rows : List ExcelRow} {idStr : String}
    (h : ∃ r ∈ rows, rowItemStr r = idStr) :
    (findRowByItem idStr rows).isSome = true := by
  induction rows with
  | nil => simp at h
  | cons r rs ih =>
    unfold findRowByItem
    by_cases hr : rowItemStr r = idStr
    · simp [hr]
    · rw [if_neg hr]
      apply ih
      obtain ⟨r2, hmem, heq⟩ := h
      rcases List.mem_cons.1 hmem with rfl | hmem
      · exact absurd heq hr
      · exact ⟨r2, hmem, heq⟩

theorem collectMapped_complete (rows : List ExcelRow)
    (mapping : List (String × PyScalar))
    (h : ∀ p ∈ mapping, ∃ r ∈ rows, rowItemStr r = pyStr p.2) :
    (collectMapped rows mapping).2 = [] ∧
    (collectMapped rows mapping).1.length = mapping.length := by
  induction mapping with
  | nil => simp [collectMapped]
  | cons p rest ih =>
    obtain ⟨hmiss, hlen⟩ := ih (fun q hq => h q (by simp [hq]))
    have hsome := findRowByItem_isSome (h p (by simp))
    rcases hfind : findRowByItem (pyStr p.2) rows with _ | r
    · rw [hfind] at hsome; simp at hsome
    · rcases p with ⟨fld, id⟩
      simp only [collectMapped, hfind]
      rcases hc : collectMapped rows rest with ⟨ms, miss⟩
      rw [hc] at hmiss hlen
      simp only at hmiss hlen
      simp [hmiss, hlen]

/-- **C1**: a store box carrying an `MPOS_mapping` that covers all nine
required category fields, every mapped id being found among the rows by
string comparison, is classified as a perfect match — and since the
classification is a single value, it lands in `perfect_matches` and in no
other tier — regardless of the dimension groups. -/
theorem analyze_perfect_match (rows : List ExcelRow) (boxes : List ABox) (b : ABox)
    (hb : b ∈ boxes) (mapping : List (String × PyScalar))
    (hm : b.mpos = some mapping)
    (_hnodup : (mapping.map Prod.fst).Nodup)
    (hcover : ∀ c ∈ required_categories, c ∈ mapping.map Prod.fst)
    (hfound : ∀ p ∈ mapping, ∃ r ∈ rows, rowItemStr r = pyStr p.2) :
    ∃ e : PerfectEntry,
      classifyBox rows (buildGroups rows).groupsInt b = .perfect e ∧
      e ∈ (analyze_import_for_matching rows boxes).perfect_matches := by
  have h9 : 9 ≤ mapping.length := by
    have hsub : required_categories ⊆ mapping.map Prod.fst := hcover
    have hnd : required_categories.Nodup := by decide
    have := (List.subperm_of_subset hnd hsub).length_le
    simpa [required_categories] using this
  obtain ⟨hmiss, hlen⟩ := collectMapped_complete rows mapping hfound
  have hne : mapping ≠ [] := by
    intro hnil
    rw [hnil] at h9
    simp at h9
  rcases hc : collectMapped rows mapping with ⟨mapped, missing⟩
  rw [hc] at hmiss hlen
  simp only at hmiss hlen
  subst hmiss
  have hpc : perfectCheck rows b = some ⟨boxRefOf b, mapped, b.itemizedPrices⟩ := by
    unfold perfectCheck
    simp [hm, hne, hc, hlen, h9]
  refine ⟨⟨boxRefOf b, mapped, b.itemizedPrices⟩, ?_, ?_⟩
  · simp [classifyBox, hpc]
  · have hfold := tierFold_eq rows (buildGroups rows).groupsInt boxes ([], [], [], [])
    simp only [analyze_import_for_matching, hfold, List.nil_append]
    refine List.mem_filterMap.2 ⟨b, hb, ?_⟩
    simp [classifyBox, hpc]

/-- Witness for C1: nine rows holding vendor items 1–9 (product names
without any dimension pattern), and a box whose mapping covers the nine
required fields; the box has no dimension group yet is a perfect match. -/
theorem analyze_perfect_match_witness :
    ∃ e : PerfectEntry,
      classifyBox
        [⟨some (.num (.i 1)), "P1", none⟩, ⟨some (.num (.i 2)), "P2", none⟩,
         ⟨some (.num (.i 3)), "P3", none⟩, ⟨some (.num (.i 4)), "P4", none⟩,
         ⟨some (.num (.i 5)), "P5", none⟩, ⟨some (.num (.i 6)), "P6", none⟩,
         ⟨some (.num (.i 7)), "P7", none⟩, ⟨some (.num (.i 8)), "P8", none⟩,
         ⟨some (.num (.i 9)), "P9", none⟩]
        (buildGroups
          [⟨some (.num (.i 1)), "P1", none⟩, ⟨some (.num (.i 2)), "P2", none⟩,
           ⟨some (.num (.i 3)), "P3", none⟩, ⟨some (.num (.i 4)), "P4", none⟩,
           ⟨some (.num (.i 5)), "P5", none⟩, ⟨some (.num (.i 6)), "P6", none⟩,
           ⟨some (.num (.i 7)), "P7", none⟩, ⟨some (.num (.i 8)), "P8", none⟩,
           ⟨some (.num (.i 9)), "P9", none⟩]).groupsInt
        ⟨"J-20", (.i 2, .i 2, .i 2),
          some [("box", .num (.i 1)), ("basic_materials", .num (.i 2)),
                ("basic_service", .num (.i 3)), ("standard_materials", .num (.i 4)),
                ("standard_service", .num (.i 5)), ("fragile_materials", .num (.i 6)),
                ("fragile_service", .num (.i 7)), ("custom_materials", .num (.i 8)),
                ("custom_service", .num (.i 9))], []⟩ = .perfect e ∧
      e ∈ (analyze_import_for_matching
        [⟨some (.num (.i 1)), "P1", none⟩, ⟨some (.num (.i 2)), "P2", none⟩,
         ⟨some (.num (.i 3)), "P3", none⟩, ⟨some (.num (.i 4)), "P4", none⟩,
         ⟨some (.num (.i 5)), "P5", none⟩, ⟨some (.num (.i 6)), "P6", none⟩,
         ⟨some (.num (.i 7)), "P7", none⟩, ⟨some (.num (.i 8)), "P8", none⟩,
         ⟨some (.num (.i 9)), "P9", none⟩]
        [⟨"J-20", (.i 2, .i 2, .i 2),
          some [("box", .num (.i 1)), ("basic_materials", .num (.i 2)),
                ("basic_service", .num (.i 3)), ("standard_materials", .num (.i 4)),
                ("standard_service", .num (.i 5)), ("fragile_materials", .num (.i 6)),
                ("fragile_service", .num (.i 7)), ("custom_materials", .num (.i 8)),
                ("custom_service", .num (.i 9))], []⟩]).perfect_matches :=
  analyze_perfect_match _ _ _ (by simp) _ rfl (by decide) (by decide) (by decide)

/-! ### C2: dimension groups with missing categories -/

/-- **C2 (counterexample)**: a box whose truncated dimensions are a key of
the dimension-group index and whose group misses required categories is
*not* always placed in `incomplete_matches`: when it also carries a
complete, fully-found `MPOS_mapping`, the perfect-match check fires first
(line 616 `continue`) and the box lands in `perfect_matches` instead. -/
theorem analyze_incomplete_claim_counterexample :
    (let crows : List ExcelRow :=
      [⟨some (.num (.i 1)), "10x10x10 Box", some (.i 5)⟩,
       ⟨some (.num (.i 2)), "10x10x10 Box", some (.i 5)⟩,
       ⟨some (.num (.i 3)), "10x10x10 Box", some (.i 5)⟩,
       ⟨some (.num (.i 4)), "10x10x10 Box", some (.i 5)⟩,
       ⟨some (.num (.i 5)), "10x10x10 Box", some (.i 5)⟩,
       ⟨some (.num (.i 6)), "10x10x10 Box", some (.i 5)⟩,
       ⟨some (.num (.i 7)), "10x10x10 Box", some (.i 5)⟩,
       ⟨some (.num (.i 8)), "10x10x10 Box", some (.i 5)⟩,
       ⟨some (.num (.i 9)), "10x10x10 Box", some (.i 5)⟩];
    let cbox : ABox :=
      ⟨"10C", (.i 10, .i 10, .i 10),
        some [("box", .num (.i 1)), ("basic_materials", .num (.i 2)),
              ("basic_service", .num (.i 3)), ("standard_materials", .num (.i 4)),
              ("standard_service", .num (.i 5)), ("fragile_materials", .num (.i 6)),
              ("fragile_service", .num (.i 7)), ("custom_materials", .num (.i 8)),
              ("custom_service", .num (.i 9))], []⟩;
    ((dictFind (boxDimStrInt cbox) (buildGroups crows).groupsInt).any
        (fun items => !(missingCategories (buildCategoriesFound items)).isEmpty)) = true ∧
    (analyze_import_for_matching crows [cbox]).incomplete_matches = [] ∧
    (analyze_import_for_matching crows [cbox]).perfect_matches.length = 1) := by
  decide

/-- **C2 (amended)**: every store box *not already taken by the
perfect-match check*, whose integer-truncated dimension string is a key of
the spreadsheet dimension-group index with the group covering fewer than
all nine required categories, is placed in `incomplete_matches` with its
missing categories recorded, and never in `probable_matches`. (The
concrete spec example is this theorem's witness.) -/
theorem analyze_incomplete_match (rows : List ExcelRow) (boxes : List ABox) (b : ABox)
    (hb : b ∈ boxes)
    (hnp : perfectCheck rows b = none)
    (items : List ItemData)
    (hkey : dictFind (boxDimStrInt b) (buildGroups rows).groupsInt = some items)
    (hmiss : missingCategories (buildCategoriesFound items) ≠ []) :
    classifyBox rows (buildGroups rows).groupsInt b =
      .incomplete ⟨boxRefOf b, items, buildCategoriesFound items,
        missingCategories (buildCategoriesFound items), "incomplete_categories"⟩ ∧
    (⟨boxRefOf b, items, buildCategoriesFound items,
      missingCategories (buildCategoriesFound items), "incomplete_categories"⟩ :
        IncompleteEntry) ∈
      (analyze_import_for_matching rows boxes).incomplete_matches ∧
    ∀ e : ProbableEntry,
      classifyBox rows (buildGroups rows).groupsInt b ≠ .probable e := by
  have hcl : classifyBox rows (buildGroups rows).groupsInt b =
      .incomplete ⟨boxRefOf b, items, buildCategoriesFound items,
        missingCategories (buildCategoriesFound items), "incomplete_categories"⟩ := by
    unfold classifyBox
    simp [hnp, hkey, hmiss]
  refine ⟨hcl, ?_, ?_⟩
  · have hfold := tierFold_eq rows (buildGroups rows).groupsInt boxes ([], [], [], [])
    simp only [analyze_import_for_matching, hfold, List.nil_append]
    exact List.mem_filterMap.2 ⟨b, hb, by simp [hcl]⟩
  · intro e he
    rw [hcl] at he
    simp at he

/-- Witness for C2 (amended): the spec's example — rows
`"10x10x10 Basic Pack Svc"` ($2) and `"10x10x10 Box"` ($5) and a box with
dimensions `[10,10,10]` and no vendor mapping — is classified incomplete
with exactly 7 of the 9 categories missing. -/
theorem analyze_incomplete_match_witness :
    (classifyBox
        [⟨none, "10x10x10 Basic Pack Svc", some (.i 2)⟩,
         ⟨none, "10x10x10 Box", some (.i 5)⟩]
        (buildGroups
          [⟨none, "10x10x10 Basic Pack Svc", some (.i 2)⟩,
           ⟨none, "10x10x10 Box", some (.i 5)⟩]).groupsInt
        ⟨"10C", (.i 10, .i 10, .i 10), none, []⟩ =
      .incomplete ⟨boxRefOf ⟨"10C", (.i 10, .i 10, .i 10), none, []⟩,
        [⟨none, "10x10x10 Basic Pack Svc", .f 2 0, "basic_service",
          "10x10x10", "10x10x10", "Basic Pack Svc"⟩,
         ⟨none, "10x10x10 Box", .f 5 0, "box", "10x10x10", "10x10x10", "Box"⟩],
        buildCategoriesFound
          [⟨none, "10x10x10 Basic Pack Svc", .f 2 0, "basic_service",
            "10x10x10", "10x10x10", "Basic Pack Svc"⟩,
           ⟨none, "10x10x10 Box", .f 5 0, "box", "10x10x10", "10x10x10", "Box"⟩],
        missingCategories (buildCategoriesFound
          [⟨none, "10x10x10 Basic Pack Svc", .f 2 0, "basic_service",
            "10x10x10", "10x10x10", "Basic Pack Svc"⟩,
           ⟨none, "10x10x10 Box", .f 5 0, "box", "10x10x10", "10x10x10", "Box"⟩]),
        "incomplete_categories"⟩ ∧
      (⟨boxRefOf ⟨"10C", (.i 10, .i 10, .i 10), none, []⟩,
        [⟨none, "10x10x10 Basic Pack Svc", .f 2 0, "basic_service",
          "10x10x10", "10x10x10", "Basic Pack Svc"⟩,
         ⟨none, "10x10x10 Box", .f 5 0, "box", "10x10x10", "10x10x10", "Box"⟩],
        buildCategoriesFound
          [⟨none, "10x10x10 Basic Pack Svc", .f 2 0, "basic_service",
            "10x10x10", "10x10x10", "Basic Pack Svc"⟩,
           ⟨none, "10x10x10 Box", .f 5 0, "box", "10x10x10", "10x10x10", "Box"⟩],
        missingCategories (buildCategoriesFound
          [⟨none, "10x10x10 Basic Pack Svc", .f 2 0, "basic_service",
            "10x10x10", "10x10x10", "Basic Pack Svc"⟩,
           ⟨none, "10x10x10 Box", .f 5 0, "box", "10x10x10", "10x10x10", "Box"⟩]),
        "incomplete_categories"⟩ : IncompleteEntry) ∈
        (analyze_import_for_matching
          [⟨none, "10x10x10 Basic Pack Svc", some (.i 2)⟩,
           ⟨none, "10x10x10 Box", some (.i 5)⟩]
          [⟨"10C", (.i 10, .i 10, .i 10), none, []⟩]).incomplete_matches ∧
      ∀ e : ProbableEntry,
        classifyBox
          [⟨none, "10x10x10 Basic Pack Svc", some (.i 2)⟩,
           ⟨none, "10x10x10 Box", some (.i 5)⟩]
          (buildGroups
            [⟨none, "10x10x10 Basic Pack Svc", some (.i 2)⟩,
             ⟨none, "10x10x10 Box", some (.i 5)⟩]).groupsInt
          ⟨"10C", (.i 10, .i 10, .i 10), none, []⟩ ≠ .probable e) ∧
    (missingCategories (buildCategoriesFound
        [⟨none, "10x10x10 Basic Pack Svc", .f 2 0, "basic_service",
          "10x10x10", "10x10x10", "Basic Pack Svc"⟩,
         ⟨none, "10x10x10 Box", .f 5 0, "box", "10x10x10", "10x10x10", "Box"⟩])).length = 7 :=
  ⟨analyze_incomplete_match _ _ _ (by simp) (by decide) _ (by decide) (by decide), by decide⟩

/-! ## `validate_box_data` (yaml_helpers.py, lines 211–268)

The function receives an arbitrary parsed-YAML box dict, so values are
modelled dynamically. -/

deriving instance DecidableEq for Except

inductive PyV where
  | vstr (s : String)
  | vint (n : ℤ)
  | vfloat (q : ℚ)
  | vlist (l : List PyV)
  | vdict (d : List (String × PyV))
  | vnone

/-- `isinstance(v, dict)`, returning the entries. -/
def asDict : PyV → Option (List (String × PyV))
  | .vdict d => some d
  | _ => none

/-- `isinstance(v, (int, float))`. -/
def pyIsNum : PyV → Bool
  | .vint _ => true
  | .vfloat _ => true
  | _ => false

/-- `isinstance(v, str)`. -/
def pyIsStr : PyV → Bool
  | .vstr _ => true
  | _ => false

def requiredItemizedFields : List String :=
  ["box-price", "standard-materials", "standard-services",
   "fragile-materials", "fragile-services",
   "custom-materials", "custom-services"]

/-- The `for field in required_fields` loop (lines 229–231). -/
def checkRequiredPriceFields (ip : List (String × PyV)) : List String → Except String Unit
  | [] => .ok ()
  | f :: rest =>
    if (dictFind f ip).isNone then
      .error ("Box missing required field '" ++ f ++ "' in itemized-prices")
    else checkRequiredPriceFields ip rest

/-- Optional `model` check (lines 238–239). -/
def checkModel (bd : List (String × PyV)) : Except String Unit :=
  match dictFind "model" bd with
  | some v =>
    if pyIsStr v then .ok () else .error "Box has invalid 'model' (must be a string)"
  | none => .ok ()

/-- Optional `location` check (lines 241–261); a `None` location is
normalised to `{}` by the code, which then passes every check. -/
def validateLocation (loc : PyV) : Except String Unit :=
  match loc with
  | .vnone => .ok ()
  | .vstr _ => .ok ()
  | .vdict d =>
    match dictFind "coords" d with
    | none => .ok ()
    | some .vnone => .ok ()
    | some (.vlist c) =>
      if c.length ≠ 2 then
        .error "Box has invalid 'location.coords' (must be a list of 2 numbers)"
      else if ¬(c.all pyIsNum) then
        .error "Box has invalid coordinate values (must be numbers)"
      else .ok ()
    | some _ => .error "Box has invalid 'location.coords' (must be a list of 2 numbers)"
  | _ => .error "Box has invalid 'location' (must be a dictionary or string)"

def checkLocation (bd : List (String × PyV)) : Except String Unit :=
  match dictFind "location" bd with
  | some loc => validateLocation loc
  | none => .ok ()

/-- Optional `alternate_depths` check (lines 263–268). -/
def checkAltDepths (bd : List (String × PyV)) : Except String Unit :=
  match dictFind "alternate_depths" bd with
  | some (.vlist l) =>
    if l.all pyIsNum then .ok ()
    else .error "Box has invalid value in 'alternate_depths' (must be numbers)"
  | some _ => .error "Box has invalid 'alternate_depths' (must be a list of numbers)"
  | none => .ok ()

/-- `"dimensions" in box_data and isinstance(box_data["dimensions"], list)
and len(box_data["dimensions"]) == 3`. -/
def dimsOk (bd : List (String × PyV)) : Bool :=
  match dictFind "dimensions" bd with
  | some (.vlist l) => l.length == 3
  | _ => false

/-- `validate_box_data` (lines 211–268): raises `ValueError` on the first
failed check, modelled as `Except.error` with the message. -/
def validate_box_data (box_data : List (String × PyV)) (_store_id : String) :
    Except String Unit :=
  if (dictFind "type" box_data).isNone then
    .error "Box missing required 'type' field"
  else if ¬ dimsOk box_data then
    .error "Box has invalid 'dimensions' (must be list of 3 numbers)"
  else
    match (dictFind "itemized-prices" box_data).bind asDict with
    | some ip =>
      (checkRequiredPriceFields ip requiredItemizedFields).bind fun _ =>
      (checkModel box_data).bind fun _ =>
      (checkLocation box_data).bind fun _ =>
      checkAltDepths box_data
    | none => .error "Box missing 'itemized-prices' (must be an object)"

/-- Does the box's `itemized-prices` dict exist and hold field `f`? -/
def ipFieldPresent (bd : List (String × PyV)) (f : String) : Bool :=
  match (dictFind "itemized-prices" bd).bind asDict with
  | some ip => (dictFind f ip).isSome
  | none => false

theorem checkRequiredPriceFields_ok {ip : List (String × PyV)} {fs : List String}
    (h : checkRequiredPriceFields ip fs = .ok ()) :
    ∀ f ∈ fs, (dictFind f ip).isSome = true := by
  induction fs with
  | nil => simp
  | cons f rest ih =>
    unfold checkRequiredPriceFields at h
    by_cases hf : (dictFind f ip).isNone
    · rw [if_pos hf] at h; simp at h
    · rw [if_neg hf] at h
      intro g hg
      rcases List.mem_cons.1 hg with rfl | hg
      · simpa [Option.isNone_iff_eq_none, ← Option.ne_none_iff_isSome] using hf
      · exact ih h g hg

theorem checkRequiredPriceFields_missing {ip : List (String × PyV)} {fs : List String}
    {f : String} (hf : f ∈ fs) (habs : dictFind f ip = none) :
    ∃ msg, checkRequiredPriceFields ip fs = .error msg := by
  induction fs with
  | nil => simp at hf
  | cons g rest ih =>
    unfold checkRequiredPriceFields
    by_cases hg : (dictFind g ip).isNone
    · exact ⟨_, by rw [if_pos hg]⟩
    · rw [if_neg hg]
      rcases List.mem_cons.1 hf with rfl | hmem

      · exact absurd (by simp [habs]) hg
      · exact ih hmem

/-- **C4 (counterexample)**: a box whose `itemized-prices` holds only the
seven checked fields — no `basic-materials`, no `basic-services` — passes
`validate_box_data`, so the nine-field claim fails. -/
theorem validate_box_data_accepts_seven_fields :
    validate_box_data
      [("type", .vstr "NormalBox"),
       ("dimensions", .vlist [.vfloat 10, .vfloat 10, .vfloat 10]),
       ("itemized-prices", .vdict
          [("box-price", .vint 5), ("standard-materials", .vint 1),
           ("standard-services", .vint 1), ("fragile-materials", .vint 1),
           ("fragile-services", .vint 1), ("custom-materials", .vint 1),
           ("custom-services", .vint 1)])] "2" = .ok () ∧
    ipFieldPresent
      [("type", .vstr "NormalBox"),
       ("dimensions", .vlist [.vfloat 10, .vfloat 10, .vfloat 10]),
       ("itemized-prices", .vdict
          [("box-price", .vint 5), ("standard-materials", .vint 1),
           ("standard-services", .vint 1), ("fragile-materials", .vint 1),
           ("fragile-services", .vint 1), ("custom-materials", .vint 1),
           ("custom-services", .vint 1)])] "basic-materials" = false ∧
    ipFieldPresent
      [("type", .vstr "NormalBox"),
       ("dimensions", .vlist [.vfloat 10, .vfloat 10, .vfloat 10]),
       ("itemized-prices", .vdict
          [("box-price", .vint 5), ("standard-materials", .vint 1),
           ("standard-services", .vint 1), ("fragile-materials", .vint 1),
           ("fragile-services", .vint 1), ("custom-materials", .vint 1),
           ("custom-services", .vint 1)])] "basic-services" = false := by
  refine ⟨by decide, by decide, by decide⟩

/-- **C4 (amended)**: `validate_box_data` requires exactly the seven fields
of its `required_fields` list (`box-price` and the standard/fragile/custom
materials/services): it accepts a box only if all seven are present in
`itemized-prices`, and it raises an error whenever any of the seven is
absent; `basic-materials` and `basic-services` are not checked. -/
theorem validate_box_data_required_fields (box_data : List (String × PyV))
    (sid : String) :
    (validate_box_data box_data sid = .ok () →
      ∀ f ∈ requiredItemizedFields, ipFieldPresent box_data f = true) ∧
    (∀ f ∈ requiredItemizedFields, ipFieldPresent box_data f = false →
      ∃ msg, validate_box_data box_data sid = .error msg) := by
  constructor
  · intro h f hf
    unfold validate_box_data at h
    by_cases ht : (dictFind "type" box_data).isNone
    · rw [if_pos ht] at h; simp at h
    rw [if_neg ht] at h
    by_cases hd : dimsOk box_data = true
    swap
    · rw [if_pos (by simpa using hd)] at h; simp at h
    rw [if_neg (by simp [hd])] at h
    rcases hip : (dictFind "itemized-prices" box_data).bind asDict with _ | ip
    · rw [hip] at h; simp at h
    rw [hip] at h
    have h2 : ((checkRequiredPriceFields ip requiredItemizedFields).bind fun _ =>
        (checkModel box_data).bind fun _ =>
        (checkLocation box_data).bind fun _ => checkAltDepths box_data) = Except.ok () := h
    rcases hc : checkRequiredPriceFields ip requiredItemizedFields with m | u
    · rw [hc] at h2; simp [Except.bind] at h2
    · have := checkRequiredPriceFields_ok hc f hf
      simp [ipFieldPresent, hip, this]
  · intro f hf habs
    unfold validate_box_data
    by_cases ht : (dictFind "type" box_data).isNone
    · exact ⟨_, by rw [if_pos ht]⟩
    rw [if_neg ht]
    by_cases hd : dimsOk box_data = true
    swap
    · exact ⟨_, by rw [if_pos (by simpa using hd)]⟩
    rw [if_neg (by simp [hd])]
    rcases hip : (dictFind "itemized-prices" box_data).bind asDict with _ | ip
    · exact ⟨"Box missing 'itemized-prices' (must be an object)", by simp [hip]⟩
    · unfold ipFieldPresent at habs
      rw [hip] at habs
      have habs3 : (dictFind f ip).isSome = false := habs
      have habs2 : dictFind f ip = none := by
        rcases hfind : dictFind f ip with _ | v
        · rfl
        · rw [hfind] at habs3; simp at habs3
      obtain ⟨msg, hmsg⟩ := checkRequiredPriceFields_missing hf habs2
      exact ⟨msg, by simp [hip, hmsg, Except.bind]⟩

/-- Witness for C4 (amended): a box missing `custom-services` is rejected. -/
theorem validate_box_data_required_fields_witness :
    ∃ msg,
      validate_box_data
        [("type", .vstr "NormalBox"),
         ("dimensions", .vlist [.vint 10, .vint 10, .vint 10]),
         ("itemized-prices", .vdict [("box-price", .vint 5)])] "2" = .error msg :=
  (validate_box_data_required_fields
    [("type", .vstr "NormalBox"),
     ("dimensions", .vlist [.vint 10, .vint 10, .vint 10]),
     ("itemized-prices", .vdict [("box-price", .vint 5)])] "2").2
    "custom-services" (by decide) rfl

/-! ## Upload handling: file-type check, size cap, and the `except` wrapper

`import_prices_from_excel` (lines 99–223) and `analyze_import_for_matching`
(lines 457–702) share the same control flow: the extension check raises
`HTTPException(400)` *outside* the `try`; the chunked size check raises
`HTTPException(400, "File size exceeds 512KB limit")` *inside* the `try`;
workbook parsing happens after the size check; and the trailing
`except Exception as e` — which also catches `HTTPException` — re-raises
everything as `HTTPException(500, f"...: {str(e)}")`. The parse step is a
parameter (openpyxl is external); the theorems quantify over it. -/

def MAX_FILE_SIZE : ℕ := 512 * 1024

structure HTTPException where
  status_code : ℕ
  detail : String
deriving DecidableEq

/-- Starlette's `str()` of an `HTTPException`: `f"{status_code}: {detail}"`. -/
def httpExcStr (e : HTTPException) : String :=
  (⟨natDigits e.status_code⟩ : String) ++ ": " ++ e.detail

/-- An exception inside the `try` body: an `HTTPException` or any other
exception carrying its message. -/
inductive PyExc where
  | http (e : HTTPException)
  | other (msg : String)
deriving DecidableEq

def pyExcStr : PyExc → String
  | .http e => httpExcStr e
  | .other m => m

/-- `filename.endswith(suffix)`. -/
def strEndsWith (suffix s : String) : Bool :=
  startsWithChars suffix.data.reverse s.data.reverse

/-- The chunked streaming loop (e.g. lines 478–487): raises the 400 as soon
as the accumulated size exceeds the cap, which happens iff the total
size does. -/
def streamSizeCheck (size : ℕ) : Except HTTPException Unit :=
  if MAX_FILE_SIZE < size then
    .error ⟨400, "File size exceeds 512KB limit"⟩
  else .ok ()

/-- The `try` body up to and including workbook parsing: size check first,
then the parse step (whose failures are plain exceptions). -/
def uploadTryBody (size : ℕ) (parse : Except String α) : Except PyExc α :=
  match streamSizeCheck size with
  | .error e => .error (.http e)
  | .ok _ =>
    match parse with
    | .error m => .error (.other m)
    | .ok a => .ok a

/-- `analyze_import_for_matching`'s request handling (lines 457–702):
extension check, then the `try` body, with every exception from the body —
the size-cap 400 included — re-raised as a 500. -/
def analyze_import_request (filename : String) (size : ℕ)
    (parse : Except String (List ExcelRow)) (boxes : List ABox) :
    Except HTTPException AnalyzeResult :=
  if ¬(strEndsWith ".xlsx" filename || strEndsWith ".xls" filename) then
    .error ⟨400, "File must be an Excel file (.xlsx or .xls)"⟩
  else
    match uploadTryBody size parse with
    | .error e => .error ⟨500, "Error analyzing import: " ++ pyExcStr e⟩
    | .ok rows => .ok (analyze_import_for_matching rows boxes)

/-- `import_prices_from_excel`'s request handling (lines 99–223), with the
post-parse work abstracted as the parse step's result. -/
def import_prices_request (filename : String) (size : ℕ)
    (parse : Except String α) : Except HTTPException α :=
  if ¬(strEndsWith ".xlsx" filename || strEndsWith ".xls" filename) then
    .error ⟨400, "File must be an Excel file (.xlsx or .xls)"⟩
  else
    match uploadTryBody size parse with
    | .error e => .error ⟨500, "Error processing file: " ++ pyExcStr e⟩
    | .ok a => .ok a

/-- **C3** (the code as it behaves): an upload over the 512KB cap is
rejected before the parse step ever matters — the result is the same for
every parse outcome — but the client receives **500**, not 400: the
size-cap `HTTPException(400)` is raised inside the `try` block and the
blanket `except Exception` re-raises it as
`HTTPException(500, "...: 400: File size exceeds 512KB limit")`. -/
theorem upload_size_cap_rejected_as_500 (filename : String) (size : ℕ)
    (boxes : List ABox)
    (hname : (strEndsWith ".xlsx" filename || strEndsWith ".xls" filename) = true)
    (hsize : MAX_FILE_SIZE < size) :
    (∀ parse : Except String (List ExcelRow),
      analyze_import_request filename size parse boxes =
        .error ⟨500, "Error analyzing import: 400: File size exceeds 512KB limit"⟩) ∧
    (∀ parse : Except String ℕ,
      import_prices_request filename size parse =
        .error ⟨500, "Error processing file: 400: File size exceeds 512KB limit"⟩) := by
  have hbody : ∀ (α : Type) (parse : Except String α),
      uploadTryBody size parse =
        .error (.http ⟨400, "File size exceeds 512KB limit"⟩) := by
    intro α parse
    unfold uploadTryBody streamSizeCheck
    rw [if_pos hsize]
  constructor
  · intro parse
    unfold analyze_import_request
    rw [if_neg (by simp [hname]), hbody]
    rfl
  · intro parse
    unfold import_prices_request
    rw [if_neg (by simp [hname]), hbody]
    rfl

/-- Witness for C3: a 524289-byte `prices.xlsx` upload is rejected with
HTTP 500 wrapping the 400 detail, independently of parsing. -/
theorem upload_size_cap_rejected_as_500_witness :
    analyze_import_request "prices.xlsx" 524289 (.ok []) [] =
      .error ⟨500, "Error analyzing import: 400: File size exceeds 512KB limit"⟩ :=
  (upload_size_cap_rejected_as_500 "prices.xlsx" 524289 [] (by decide) (by decide)).1 (.ok [])

/-! ## Boxes router (`backend/routers/boxes.py`)

The endpoints are modelled after authentication (auth failures leave the
store untouched and are orthogonal to these claims). The persisted YAML
file is threaded explicitly: each endpoint returns its HTTP outcome paired
with the file state afterwards — updated exactly when the code reaches its
`save_store_yaml` call. -/

/-- `0.1 <= v <= 1000` on floats (exact-rational model). -/
def dimInRange (v : ℚ) : Bool := decide (mkRat 1 10 ≤ v) && decide (v ≤ 1000)

/-- `CreateBoxRequest` (lines 370–398). -/
structure CreateBoxRequest where
  model : String
  dimensions : List ℚ
  alternate_depths : Option (List ℚ)
  location : Option (List (String × PyV))
  notes : Option String
  from_library : Bool
  offered_names : Option (List String)

/-- The pydantic validation of a `CreateBoxRequest` (field constraints and
the three `@validator`s); FastAPI runs it before the endpoint body and
answers 422 on failure. Pydantic collects all failures; only the
error/success outcome matters here, so the checks run sequentially. -/
def pydanticValidate (r : CreateBoxRequest) : Except String CreateBoxRequest :=
  if ¬(1 ≤ r.model.length ∧ r.model.length ≤ 50) then
    .error "model length out of bounds"
  else if containsChars ";".data r.model.data || containsChars "--".data r.model.data ||
      containsChars "/*".data r.model.data || containsChars "*/".data r.model.data ||
      containsChars "\x00".data r.model.data then
    .error "Invalid characters in model"
  else if r.dimensions.length ≠ 3 then
    .error "dimensions must have 3 items"
  else if ¬ r.dimensions.all dimInRange then
    .error "Dimensions must be between 0.1 and 1000 inches"
  else
    match r.alternate_depths with
    | some ds =>
      if 10 < ds.length then .error "alternate_depths has too many items"
      else if ¬ ds.all dimInRange then
        .error "Alternate depths must be between 0.1 and 1000 inches"
      else .ok r
    | none => .ok r

/-- `box.get("model", "")` compared against a nonempty request model:
non-string values never equal it, so the string projection suffices. -/
def modelOrEmpty (bd : List (String × PyV)) : String :=
  match dictFind "model" bd with
  | some (.vstr m) => m
  | _ => ""

def defaultItemizedPyV : List (String × PyV) :=
  [("box-price", .vint 0), ("basic-materials", .vint 0), ("basic-services", .vint 0),
   ("standard-materials", .vint 0), ("standard-services", .vint 0),
   ("fragile-materials", .vint 0), ("fragile-services", .vint 0),
   ("custom-materials", .vint 0), ("custom-services", .vint 0)]

/-- The `new_box` dict built by `create_box`/`create_boxes_batch`
(lines 433–466 and 523–557): truthy optional fields are added, and the
nine itemized-price fields are zero-initialised. -/
def newBoxDict (r : CreateBoxRequest) : List (String × PyV) :=
  [("type", PyV.vstr (if r.from_library then "NormalBox" else "CustomBox")),
   ("model", .vstr r.model),
   ("dimensions", .vlist (r.dimensions.map .vfloat))] ++
  (match r.alternate_depths with
   | some (d :: ds) => [("alternate_depths", PyV.vlist ((d :: ds).map .vfloat))]
   | _ => []) ++
  (match r.location with
   | some (p :: l) => [("location", PyV.vdict (p :: l))]
   | _ => []) ++
  (match r.notes with
   | some s => if s = "" then [] else [("notes", PyV.vstr s)]
   | none => []) ++
  [("itemized-prices", .vdict defaultItemizedPyV)]

structure CreateBoxResp where
  message : String
  box : List (String × PyV)

/-- `create_box` (lines 499–591): pydantic validation, duplicate-model
check, `validate_box_data`, append, save. The second component is the
file state afterwards. -/
def create_box (store_id : String) (stored : List (List (String × PyV)))
    (raw : CreateBoxRequest) :
    Except HTTPException CreateBoxResp × List (List (String × PyV)) :=
  match pydanticValidate raw with
  | .error msg => (.error ⟨422, msg⟩, stored)
  | .ok r =>
    if stored.any (fun bd => modelOrEmpty bd == r.model) then
      (.error ⟨400, "Box model '" ++ r.model ++ "' already exists"⟩, stored)
    else
      let nb := newBoxDict r
      match validate_box_data nb store_id with
      | .error e => (.error ⟨400, e⟩, stored)
      | .ok _ => (.ok ⟨"Box added successfully", nb⟩, stored ++ [nb])

def pydanticValidateList : List CreateBoxRequest → Except String (List CreateBoxRequest)
  | [] => .ok []
  | r :: rs =>
    match pydanticValidate r with
    | .error m => .error m
    | .ok r2 =>
      match pydanticValidateList rs with
      | .error m => .error m
      | .ok rs2 => .ok (r2 :: rs2)

structure BatchResp where
  message : String
  boxes : List (List (String × PyV))

/-- `create_boxes_batch` (lines 401–497): pydantic-validate the whole
body, reject duplicates against the existing models, append all boxes,
save once. -/
def create_boxes_batch (stored : List (List (String × PyV)))
    (raws : List CreateBoxRequest) :
    Except HTTPException BatchResp × List (List (String × PyV)) :=
  match pydanticValidateList raws with
  | .error msg => (.error ⟨422, msg⟩, stored)
  | .ok rs =>
    let duplicates := rs.filter (fun r => stored.any (fun bd => modelOrEmpty bd == r.model))
    if ¬ duplicates.isEmpty then
      (.error ⟨400, "Box models already exist"⟩, stored)
    else
      let newBoxes := rs.map newBoxDict
      (.ok ⟨"Successfully added boxes", newBoxes⟩, stored ++ newBoxes)

theorem pydanticValidate_ok {r r2 : CreateBoxRequest}
    (h : pydanticValidate r = .ok r2) :
    (∀ d ∈ r.dimensions, dimInRange d = true) ∧
    (∀ ds, r.alternate_depths = some ds → ∀ d ∈ ds, dimInRange d = true) := by
  unfold pydanticValidate at h
  split at h
  · simp at h
  split at h
  · simp at h
  split at h
  · simp at h
  split at h
  · simp at h
  next hlen hchars hn3 hall =>
    have hdims : ∀ d ∈ r.dimensions, dimInRange d = true := by
      have := not_not.1 hall
      simpa [List.all_eq_true] using this
    refine ⟨hdims, ?_⟩
    intro ds hds
    rw [hds] at h
    have h2 : (if 10 < ds.length then
          (Except.error "alternate_depths has too many items" : Except String CreateBoxRequest)
        else if ¬ ds.all dimInRange = true then
          .error "Alternate depths must be between 0.1 and 1000 inches"
        else .ok r) = .ok r2 := h
    split at h2
    · simp at h2
    split at h2
    · simp at h2
    next hlen2 hall2 =>
      have := not_not.1 hall2
      simpa [List.all_eq_true] using this

theorem pydanticValidate_bad_dim {r : CreateBoxRequest}
    (h : ∃ d ∈ r.dimensions, dimInRange d = false) :
    ∃ m, pydanticValidate r = .error m := by
  unfold pydanticValidate
  split
  · exact ⟨_, rfl⟩
  split
  · exact ⟨_, rfl⟩
  split
  · exact ⟨_, rfl⟩
  split
  · exact ⟨_, rfl⟩
  next hlen hchars hn3 hall =>
    exfalso
    obtain ⟨d, hd, hbad⟩ := h
    have := (not_not.1 hall)
    rw [List.all_eq_true] at this
    rw [this d hd] at hbad
    cases hbad

theorem pydanticValidateList_bad {raws : List CreateBoxRequest} {r : CreateBoxRequest}
    (hr : r ∈ raws) {m : String} (hm : pydanticValidate r = .error m) :
    ∃ m2, pydanticValidateList raws = .error m2 := by
  induction raws with
  | nil => cases hr
  | cons a rest ih =>
    unfold pydanticValidateList
    rcases ha : pydanticValidate a with m1 | a2
    · exact ⟨m1, rfl⟩
    · rcases List.mem_cons.1 hr with rfl | hmem
      · rw [ha] at hm; cases hm
      · obtain ⟨m2, hm2⟩ := ih hmem
        rw [hm2]
        exact ⟨m2, rfl⟩

/-- **C9**: boxes accepted by `create_box` and `create_boxes_batch` have
all dimensions and alternate depths within 0.1–1000 inches, and a request
with any dimension outside that range is rejected by the pydantic
validation with the store's box list unchanged. -/
theorem create_box_dimension_validation :
    (∀ (sid : String) (stored : List (List (String × PyV))) (raw : CreateBoxRequest)
        (resp : CreateBoxResp) (stored2 : List (List (String × PyV))),
      create_box sid stored raw = (.ok resp, stored2) →
        (∀ d ∈ raw.dimensions, dimInRange d = true) ∧
        (∀ ds, raw.alternate_depths = some ds → ∀ d ∈ ds, dimInRange d = true)) ∧
    (∀ (sid : String) (stored : List (List (String × PyV))) (raw : CreateBoxRequest),
      (∃ d ∈ raw.dimensions, dimInRange d = false) →
        ∃ e : HTTPException, create_box sid stored raw = (.error e, stored)) ∧
    (∀ (stored : List (List (String × PyV))) (raws : List CreateBoxRequest)
        (resp : BatchResp) (stored2 : List (List (String × PyV))),
      create_boxes_batch stored raws = (.ok resp, stored2) →
        ∀ r ∈ raws, (∀ d ∈ r.dimensions, dimInRange d = true) ∧
          (∀ ds, r.alternate_depths = some ds → ∀ d ∈ ds, dimInRange d = true)) ∧
    (∀ (stored : List (List (String × PyV))) (raws : List CreateBoxRequest)
        (r : CreateBoxRequest), r ∈ raws →
      (∃ d ∈ r.dimensions, dimInRange d = false) →
        ∃ e : HTTPException, create_boxes_batch stored raws = (.error e, stored)) := by
  refine ⟨?_, ?_, ?_, ?_⟩
  · intro sid stored raw resp stored2 h
    unfold create_box at h
    rcases hv : pydanticValidate raw with m | r2
    · rw [hv] at h; cases h
    · exact pydanticValidate_ok hv
  · intro sid stored raw hbad
    obtain ⟨m, hm⟩ := pydanticValidate_bad_dim hbad
    exact ⟨⟨422, m⟩, by unfold create_box; rw [hm]⟩
  · intro stored raws resp stored2 h r hr
    unfold create_boxes_batch at h
    rcases hv : pydanticValidateList raws with m | rs
    · rw [hv] at h; cases h
    · rcases hpv : pydanticValidate r with m | r2
      · obtain ⟨m2, hm2⟩ := pydanticValidateList_bad hr hpv
        rw [hm2] at hv; cases hv
      · exact pydanticValidate_ok hpv
  · intro stored raws r hr hbad
    obtain ⟨m, hm⟩ := pydanticValidate_bad_dim hbad
    obtain ⟨m2, hm2⟩ := pydanticValidateList_bad hr hm
    exact ⟨⟨422, m2⟩, by unfold create_boxes_batch; rw [hm2]⟩

/-- Witness for C9: a request with a 20000-inch dimension is rejected and
the store's box list is unchanged. -/
theorem create_box_dimension_validation_witness :
    ∃ e : HTTPException,
      create_box "2" [] ⟨"BigBox", [20000, 10, 10], none, none, none, false, none⟩ =
        (.error e, []) :=
  create_box_dimension_validation.2.1 "2" []
    ⟨"BigBox", [20000, 10, 10], none, none, none, false, none⟩
    ⟨20000, by simp, by decide⟩

/-! ## `update_itemized_prices` (boxes.py, lines 212–283) -/

/-- A store box as this endpoint reads it: optional `model`, the
`dimensions` used for the legacy default name, optional
`itemized-prices` (numbers as exact rationals). -/
structure RBox where
  model : Option String
  dimensions : List PyNum
  itemizedPrices : Option (List (String × ℚ))
deriving DecidableEq

/-- `box.get("model", f"Unknown-{len(dims)}-{dims[0]}-{dims[1]}-{dims[2]}")`
(dimensions are assumed to have three entries; fewer would raise an
`IndexError` in the source). -/
def rboxModel (b : RBox) : String :=
  match b.model with
  | some m => m
  | none =>
    "Unknown-" ++ (⟨natDigits b.dimensions.length⟩ : String) ++ "-" ++
    (⟨pyNumStr (b.dimensions.getD 0 (.i 0))⟩ : String) ++ "-" ++
    (⟨pyNumStr (b.dimensions.getD 1 (.i 0))⟩ : String) ++ "-" ++
    (⟨pyNumStr (b.dimensions.getD 2 (.i 0))⟩ : String)

/-- `field.replace('_', '-')`. -/
def replaceUnderscores (s : String) : String :=
  ⟨s.data.map (fun c => if c = '_' then '-' else c)⟩

def defaultItemized : List (String × ℚ) :=
  [("box-price", 0), ("basic-materials", 0), ("basic-services", 0),
   ("standard-materials", 0), ("standard-services", 0),
   ("fragile-materials", 0), ("fragile-services", 0),
   ("custom-materials", 0), ("custom-services", 0)]

/-- The inner `for field, new_price in price_changes.items()` loop
(lines 264–273): apply valid prices, raise HTTP 400 at the first invalid
one. (Pydantic has already coerced every value to a float, so the
`isinstance` test always passes; the omitted interpolated value is the
only difference in the detail string.) -/
def applyPriceChanges (ip : List (String × ℚ)) (count : ℕ) :
    List (String × ℚ) → Except HTTPException (List (String × ℚ) × ℕ)
  | [] => .ok (ip, count)
  | (field, newPrice) :: rest =>
    if decide (0 ≤ newPrice) && decide (newPrice ≤ 10000) then
      applyPriceChanges (dictSet (replaceUnderscores field) newPrice ip) (count + 1) rest
    else
      .error ⟨400, "Invalid price value. Prices must be between 0 and 10000."⟩

/-- The outer `for box in data["boxes"]` loop (lines 242–278). -/
def updateBoxesLoop (changes : List (String × List (String × ℚ))) :
    List RBox → ℕ → Except HTTPException (List RBox × ℕ)
  | [], count => .ok ([], count)
  | b :: rest, count =>
    match dictFind (rboxModel b) changes with
    | none =>
      match updateBoxesLoop changes rest count with
      | .error e => .error e
      | .ok (bs, c) => .ok (b :: bs, c)
    | some pcs =>
      match applyPriceChanges (b.itemizedPrices.getD defaultItemized) count pcs with
      | .error e => .error e
      | .ok (ip2, c2) =>
        match updateBoxesLoop changes rest c2 with
        | .error e => .error e
        | .ok (bs, c3) =>
          .ok ({ b with itemizedPrices := some ip2, model := some (rboxModel b) } :: bs, c3)

/-- `update_itemized_prices` after authentication: the loop, then — only
when no exception was raised — `save_store_yaml`. The second component is
the persisted box list afterwards: unchanged whenever the request fails. -/
def update_itemized_prices (stored : List RBox)
    (changes : List (String × List (String × ℚ))) :
    Except HTTPException String × List RBox :=
  match updateBoxesLoop changes stored 0 with
  | .error e => (.error e, stored)
  | .ok (boxes2, count) =>
    (.ok ("Updated " ++ (⟨natDigits count⟩ : String) ++ " itemized prices successfully"),
     boxes2)

/-- **C10 (counterexample)**: an out-of-range price submitted for a model
that matches no store box is never validated — the request succeeds, the
loop applies nothing, and the store is saved — so the claim as stated
fails. -/
theorem update_itemized_prices_claim_counterexample :
    ((-5 : ℚ) < 0 ∨ (10000 : ℚ) < -5) ∧
    (update_itemized_prices
        [⟨some "A", [.i 10, .i 10, .i 10], some defaultItemized⟩]
        [("B", [("box_price", -5)])]).1 =
      .ok "Updated 0 itemized prices successfully" := by
  constructor
  · left; decide
  · decide

theorem applyPriceChanges_error_code {ip : List (String × ℚ)} {count : ℕ}
    {pcs : List (String × ℚ)} {e : HTTPException}
    (h : applyPriceChanges ip count pcs = .error e) : e.status_code = 400 := by
  induction pcs generalizing ip count with
  | nil => simp [applyPriceChanges] at h
  | cons p rest ih =>
    rcases p with ⟨field, newPrice⟩
    unfold applyPriceChanges at h
    split at h
    · exact ih h
    · cases h; rfl

theorem applyPriceChanges_bad {ip : List (String × ℚ)} {count : ℕ}
    {pcs : List (String × ℚ)} {field : String} {p : ℚ}
    (hp : (field, p) ∈ pcs) (hbad : ¬(0 ≤ p ∧ p ≤ 10000)) :
    ∃ e : HTTPException, e.status_code = 400 ∧
      applyPriceChanges ip count pcs = .error e := by
  induction pcs generalizing ip count with
  | nil => cases hp
  | cons q rest ih =>
    rcases q with ⟨f0, p0⟩
    unfold applyPriceChanges
    by_cases hgood : (decide (0 ≤ p0) && decide (p0 ≤ 10000)) = true
    · rw [if_pos hgood]
      rcases List.mem_cons.1 hp with heq | hmem
      · exfalso
        cases heq
        simp only [Bool.and_eq_true, decide_eq_true_eq] at hgood
        exact hbad hgood
      · exact ih hmem
    · rw [if_neg hgood]
      exact ⟨_, rfl, rfl⟩

theorem updateBoxesLoop_bad {changes : List (String × List (String × ℚ))}
    {stored : List RBox} {b : RBox} (hb : b ∈ stored)
    {pcs : List (String × ℚ)} (hpcs : dictFind (rboxModel b) changes = some pcs)
    {field : String} {p : ℚ} (hp : (field, p) ∈ pcs)
    (hbad : ¬(0 ≤ p ∧ p ≤ 10000)) :
    ∀ count, ∃ e : HTTPException, e.status_code = 400 ∧
      updateBoxesLoop changes stored count = .error e := by
  induction stored with
  | nil => cases hb
  | cons b0 rest ih =>
    intro count
    rcases List.mem_cons.1 hb with rfl | hmem
    · obtain ⟨e, he400, happ⟩ :=
        @applyPriceChanges_bad (b.itemizedPrices.getD defaultItemized) count pcs
          field p hp hbad
      exact ⟨e, he400, by simp [updateBoxesLoop, hpcs, happ]⟩
    · rcases hfind : dictFind (rboxModel b0) changes with _ | pcs0
      · obtain ⟨e, he400, hloop⟩ := ih hmem count
        exact ⟨e, he400, by simp [updateBoxesLoop, hfind, hloop]⟩
      · rcases happ : applyPriceChanges (Option.getD b0.itemizedPrices defaultItemized) count pcs0 with e0 | ⟨ip2, c2⟩
        · exact ⟨e0, applyPriceChanges_error_code happ, by simp [updateBoxesLoop, hfind, happ]⟩
        · obtain ⟨e, he400, hloop⟩ := ih hmem c2
          exact ⟨e, he400, by simp [updateBoxesLoop, hfind, happ, hloop]⟩

/-- **C10 (amended)**: if any submitted price value *for a model that
matches a box in the store* is not between 0 and 10000 inclusive, the
request fails with HTTP 400 before `save_store_yaml` is reached, so the
persisted box list is unchanged even when earlier boxes in the request had
valid changes; invalid prices for models matching no store box are never
validated and the request saves normally. -/
theorem update_itemized_prices_atomic (stored : List RBox)
    (changes : List (String × List (String × ℚ)))
    (b : RBox) (hb : b ∈ stored)
    (pcs : List (String × ℚ)) (hpcs : dictFind (rboxModel b) changes = some pcs)
    (field : String) (p : ℚ) (hp : (field, p) ∈ pcs)
    (hbad : ¬(0 ≤ p ∧ p ≤ 10000)) :
    ∃ e : HTTPException, e.status_code = 400 ∧
      update_itemized_prices stored changes = (.error e, stored) := by
  obtain ⟨e, he400, hloop⟩ := updateBoxesLoop_bad hb hpcs hp hbad 0
  exact ⟨e, he400, by unfold update_itemized_prices; rw [hloop]⟩

/-- Witness for C10 (amended): a −5 price for box `A`'s `box_price` fails
with 400 and leaves the store file unchanged, although box `A` exists and
an earlier field in the same request was valid. -/
theorem update_itemized_prices_atomic_witness :
    ∃ e : HTTPException, e.status_code = 400 ∧
      update_itemized_prices
        [⟨some "A", [.i 10, .i 10, .i 10], some defaultItemized⟩]
        [("A", [("standard_materials", 3), ("box_price", -5)])] =
      (.error e, [⟨some "A", [.i 10, .i 10, .i 10], some defaultItemized⟩]) :=
  update_itemized_prices_atomic
    [⟨some "A", [.i 10, .i 10, .i 10], some defaultItemized⟩]
    [("A", [("standard_materials", 3), ("box_price", -5)])]
    ⟨some "A", [.i 10, .i 10, .i 10], some defaultItemized⟩ (by simp)
    [("standard_materials", 3), ("box_price", -5)] (by decide)
    "box_price" (-5) (by simp) (by decide)

/-! ## YAML persistence (`save_store_yaml` / `load_store_yaml`,
yaml_helpers.py lines 24–175)

The store data is modelled in the shape the writer handles: numbers are
exact decimals (`PyNum`), a location is its `coords` pair (the only
location shape the writer emits), and `MPOS_mapping` values are the
integer vendor item ids. The writer produces the file as a list of lines;
the reader models `yaml.safe_load` restricted to the emitted fragment,
erroring exactly where PyYAML would reject the line (e.g. a stray `"`
inside a double-quoted scalar). -/

theorem dropSpaces_eq_self {l : List Char} (h : ∀ c ∈ l, pyIsSpace c = false) :
    dropSpaces l = l := by
  cases l with
  | nil => rfl
  | cons a as => simp [dropSpaces, h a (by simp)]

theorem pyStrip_space_cons {l : List Char} (h : ∀ c ∈ l, pyIsSpace c = false) :
    pyStrip (' ' :: l) = l := by
  have h1 : dropSpaces (' ' :: l) = dropSpaces l := by
    simp [dropSpaces, pyIsSpace]
  rw [pyStrip, h1, dropSpaces_eq_self h,
    dropSpaces_eq_self (fun c hc => h c (List.mem_reverse.1 hc))]
  exact List.reverse_reverse l

end BoxChooser
